import Mathlib

/-!
# Turtlitto: the TRC-side protocol connection (`pkg/trcapi/conn.go`, `pkg/api/api.go`)

A shallow embedding of the SRRS side of the TRC protocol: the handshake done by
`Connect`, the dispatch loop it starts, `sendRequest`, `Close`, and the state merge that
the loop performs with `json.Unmarshal`.

Conventions of the embedding.

* The Go program is concurrent. Every function below is one atomic step of one goroutine
  on the shared connection record `Conn`; callers interleave the steps.
* The byte stream is seen through the two codec calls the source makes: each
  `decoder.Decode` yields one `DecodeResult`, each `encoder.Encode` appends the message to
  `Encoder.sent` and the transport answers whether the write failed.
* `encoding/json`, `semver` and `ulid` are libraries outside the repository. The state
  merge follows the documented behaviour of `json.Unmarshal`; the handshake codec, the
  case folding of member names and the drawn message ids are parameters.
-/

namespace Turtlitto

/-! ## Data model (`pkg/api/api.go`) -/

/-- A `ulid.ULID`, kept abstract: only equality of identifiers matters. -/
abbrev ULID := Nat

/-- The fields of `semver.Version`. -/
structure Version where
  Major : Nat
  Minor : Nat
  Patch : Nat
  Pre : List String
  Build : List String
deriving DecidableEq, Repr

/-- A JSON number literal: `uint n` is a literal made of decimal digits only (the only
literals `strconv.ParseUint` accepts), `other` is any literal with a sign, a fraction or
an exponent. -/
inductive JNum where
  | uint (n : Nat)
  | other
deriving DecidableEq, Repr

/-- A syntactically valid JSON text, as `encoding/json` scans it. Object members keep
their textual order and may repeat a name. -/
inductive Json where
  | null
  | bool (b : Bool)
  | num (n : JNum)
  | str (s : String)
  | arr (items : List Json)
  | obj (members : List (String × Json))
deriving Repr

/-- The type `json.RawMessage`: `none` is the empty byte slice (member absent from the
message). -/
abbrev RawMessage := Option Json

/-- The type `api.MessageType`, a Go string type. -/
abbrev MessageType := String

/-- The constant `api.MessageTypeState`. -/
def MessageTypeState : MessageType := "state"

/-- The constant `api.MessageTypePing`. -/
def MessageTypePing : MessageType := "ping"

/-- The constant `api.MessageTypeHandshake`. -/
def MessageTypeHandshake : MessageType := "handshake"

/-- The struct `api.Message`, the envelope exchanged between TRC and SRRS (`Typ` is the
field `Type`). -/
structure Message where
  Typ : MessageType
  MessageID : ULID
  ParentID : Option ULID
  Payload : RawMessage

/-- Modelled from the spec: `api.NewMessage` is called by `conn.go` but is not in the
sources; per the spec a message gets an identifier generated by the sender, and a reply
carries the id of the request as `parent_id`. The generated identifier is the argument
`id`. -/
def NewMessage (id : ULID) (typ : MessageType) (pld : RawMessage) (parent : Option ULID) :
    Message :=
  { Typ := typ, MessageID := id, ParentID := parent, Payload := pld }

/-- Modelled from the spec: `api.Handshake` in the sources has the field `Version` only,
while `Connect` also reads `hs.Token`; per the spec the payload carries the protocol
version plus an opaque session token. -/
structure Handshake where
  Version : Version
  Token : String
deriving DecidableEq, Repr

/-- The struct `api.TurtleState`; `uint8` fields are numbers below 256. -/
structure TurtleState where
  VisionStatus : Bool
  MotionStatus : Bool
  WorldmodelStatus : Bool
  AppmanStatus : Bool
  RestartCountMotion : Nat
  RestartCountVision : Nat
  RestartCountWorldmodel : Nat
  BallFound : String
  LocalizationStatus : Bool
  CPB : String
  BatteryVoltage : Nat
  EmergencyStatus : Nat
  Role : String
  RefBoxRole : String
  RobotInField : Bool
  RobotEmergencyButton : Bool
  HomeGoal : String
  TeamColor : String
  ActiveDevPC : Nat
  Kinect1State : String
  Kinect2State : String
deriving DecidableEq, Repr

/-- The Go zero value of `api.TurtleState`. -/
def TurtleState.zero : TurtleState :=
  { VisionStatus := false, MotionStatus := false, WorldmodelStatus := false,
    AppmanStatus := false, RestartCountMotion := 0, RestartCountVision := 0,
    RestartCountWorldmodel := 0, BallFound := "", LocalizationStatus := false, CPB := "",
    BatteryVoltage := 0, EmergencyStatus := 0, Role := "", RefBoxRole := "",
    RobotInField := false, RobotEmergencyButton := false, HomeGoal := "", TeamColor := "",
    ActiveDevPC := 0, Kinect1State := "", Kinect2State := "" }

/-- Lookup `m[k]` in a Go map kept as a list of entries with unique keys; the option is
the second result of the comma-ok form. -/
def mapGet {κ α : Type} [DecidableEq κ] : List (κ × α) → κ → Option α
  | [], _ => none
  | (k, v) :: rest, id => if k = id then some v else mapGet rest id

/-- Map assignment `m[k] = v`. -/
def mapSet {κ α : Type} [DecidableEq κ] : List (κ × α) → κ → α → List (κ × α)
  | [], id, v => [(id, v)]
  | (k, w) :: rest, id, v => if k = id then (k, v) :: rest else (k, w) :: mapSet rest id v

/-- The builtin `delete(m, k)`. -/
def mapDelete {κ α : Type} [DecidableEq κ] : List (κ × α) → κ → List (κ × α)
  | [], _ => []
  | (k, w) :: rest, id => if k = id then mapDelete rest id else (k, w) :: mapDelete rest id

/-- A Go `map[string]*TurtleState`: a value may be the nil pointer (`none`). The nil map
and the empty map are both `[]`. -/
abbrev TurtleMap := List (String × Option TurtleState)

/-- The struct `api.State`. -/
structure State where
  Command : String
  Turtles : TurtleMap
deriving DecidableEq, Repr

/-! ## `json.Unmarshal` onto `api.State` -/

/-- The errors `json.Unmarshal` reports: a syntax error (here only the empty input, since
a `RawMessage` taken from a decoded message is valid JSON) or an `UnmarshalTypeError`
naming the JSON value kind and the Go field (of the number text, the offset and the path
of the field, which Go records too, nothing is kept). -/
inductive JsonError where
  | unexpectedEnd
  | typeError (value : String) (field : String)
deriving DecidableEq, Repr

/-- The JSON kind named in an `UnmarshalTypeError`. -/
def Json.kind : Json → String
  | .null => "null"
  | .bool _ => "bool"
  | .num _ => "number"
  | .str _ => "string"
  | .arr _ => "array"
  | .obj _ => "object"

/-- The decoder keeps the first error it saved (`decodeState.saveError`). -/
def saveError (saved new : Option JsonError) : Option JsonError :=
  match saved with
  | some e => some e
  | none => new

/-- Store a JSON value into a Go `bool`: a boolean is stored, `null` has no effect,
anything else is a type error and leaves the field as it was. -/
def storeBool (field : String) (v : Json) (old : Bool) : Bool × Option JsonError :=
  match v with
  | .bool b => (b, none)
  | .null => (old, none)
  | other => (old, some (.typeError other.kind field))

/-- Store a JSON value into a Go `uint8`: a digits-only literal below 256 is stored,
`null` has no effect, anything else is a type error. -/
def storeUint8 (field : String) (v : Json) (old : Nat) : Nat × Option JsonError :=
  match v with
  | .num (.uint n) => if n < 256 then (n, none) else (old, some (.typeError "number" field))
  | .null => (old, none)
  | other => (old, some (.typeError other.kind field))

/-- Store a JSON value into a Go string type: a string is stored, `null` has no effect,
anything else is a type error. -/
def storeString (field : String) (v : Json) (old : String) : String × Option JsonError :=
  match v with
  | .str s => (s, none)
  | .null => (old, none)
  | other => (old, some (.typeError other.kind field))

/-- The fields of `api.TurtleState`, in declaration order. -/
inductive TField where
  | visionstatus | motionstatus | worldmodelstatus | appmanstatus
  | restartcountmotion | restartcountvision | restartcountworldmodel
  | ballfound | localizationstatus | cpb | batteryvoltage | emergencystatus
  | role | refboxrole | robotinfield | robotembutton | homegoal | teamcolor
  | activedevpc | kinect1_state | kinect2_state
deriving DecidableEq, Repr

/-- The `json:"..."` tag of each field. -/
def TField.tag : TField → String
  | .visionstatus => "visionstatus"
  | .motionstatus => "motionstatus"
  | .worldmodelstatus => "worldmodelstatus"
  | .appmanstatus => "appmanstatus"
  | .restartcountmotion => "restartcountmotion"
  | .restartcountvision => "restartcountvision"
  | .restartcountworldmodel => "restartcountworldmodel"
  | .ballfound => "ballfound"
  | .localizationstatus => "localizationstatus"
  | .cpb => "cpb"
  | .batteryvoltage => "batteryvoltage"
  | .emergencystatus => "emergencystatus"
  | .role => "role"
  | .refboxrole => "refboxrole"
  | .robotinfield => "robotinfield"
  | .robotembutton => "robotembutton"
  | .homegoal => "homegoal"
  | .teamcolor => "teamcolor"
  | .activedevpc => "activedevpc"
  | .kinect1_state => "kinect1_state"
  | .kinect2_state => "kinect2_state"

/-- All fields of `api.TurtleState`, in declaration order. -/
def TField.all : List TField :=
  [.visionstatus, .motionstatus, .worldmodelstatus, .appmanstatus, .restartcountmotion,
   .restartcountvision, .restartcountworldmodel, .ballfound, .localizationstatus, .cpb,
   .batteryvoltage, .emergencystatus, .role, .refboxrole, .robotinfield, .robotembutton,
   .homegoal, .teamcolor, .activedevpc, .kinect1_state, .kinect2_state]

/-- Field resolution of `encoding/json` for a member name: the field whose tag is exactly
the name, otherwise the first field whose tag equals the name after case folding.
`fold` is the library function `foldName`. -/
def findField (fold : String → String) (key : String) : Option TField :=
  match TField.all.find? (fun f => decide (f.tag = key)) with
  | some f => some f
  | none => TField.all.find? (fun f => decide (fold f.tag = fold key))

/-- Decode the value of one member into the field it resolved to. -/
def setField (f : TField) (v : Json) (t : TurtleState) : TurtleState × Option JsonError :=
  match f with
  | .visionstatus =>
    let r := storeBool f.tag v t.VisionStatus; ({ t with VisionStatus := r.1 }, r.2)
  | .motionstatus =>
    let r := storeBool f.tag v t.MotionStatus; ({ t with MotionStatus := r.1 }, r.2)
  | .worldmodelstatus =>
    let r := storeBool f.tag v t.WorldmodelStatus; ({ t with WorldmodelStatus := r.1 }, r.2)
  | .appmanstatus =>
    let r := storeBool f.tag v t.AppmanStatus; ({ t with AppmanStatus := r.1 }, r.2)
  | .restartcountmotion =>
    let r := storeUint8 f.tag v t.RestartCountMotion
    ({ t with RestartCountMotion := r.1 }, r.2)
  | .restartcountvision =>
    let r := storeUint8 f.tag v t.RestartCountVision
    ({ t with RestartCountVision := r.1 }, r.2)
  | .restartcountworldmodel =>
    let r := storeUint8 f.tag v t.RestartCountWorldmodel
    ({ t with RestartCountWorldmodel := r.1 }, r.2)
  | .ballfound =>
    let r := storeString f.tag v t.BallFound; ({ t with BallFound := r.1 }, r.2)
  | .localizationstatus =>
    let r := storeBool f.tag v t.LocalizationStatus
    ({ t with LocalizationStatus := r.1 }, r.2)
  | .cpb =>
    let r := storeString f.tag v t.CPB; ({ t with CPB := r.1 }, r.2)
  | .batteryvoltage =>
    let r := storeUint8 f.tag v t.BatteryVoltage; ({ t with BatteryVoltage := r.1 }, r.2)
  | .emergencystatus =>
    let r := storeUint8 f.tag v t.EmergencyStatus; ({ t with EmergencyStatus := r.1 }, r.2)
  | .role =>
    let r := storeString f.tag v t.Role; ({ t with Role := r.1 }, r.2)
  | .refboxrole =>
    let r := storeString f.tag v t.RefBoxRole; ({ t with RefBoxRole := r.1 }, r.2)
  | .robotinfield =>
    let r := storeBool f.tag v t.RobotInField; ({ t with RobotInField := r.1 }, r.2)
  | .robotembutton =>
    let r := storeBool f.tag v t.RobotEmergencyButton
    ({ t with RobotEmergencyButton := r.1 }, r.2)
  | .homegoal =>
    let r := storeString f.tag v t.HomeGoal; ({ t with HomeGoal := r.1 }, r.2)
  | .teamcolor =>
    let r := storeString f.tag v t.TeamColor; ({ t with TeamColor := r.1 }, r.2)
  | .activedevpc =>
    let r := storeUint8 f.tag v t.ActiveDevPC; ({ t with ActiveDevPC := r.1 }, r.2)
  | .kinect1_state =>
    let r := storeString f.tag v t.Kinect1State; ({ t with Kinect1State := r.1 }, r.2)
  | .kinect2_state =>
    let r := storeString f.tag v t.Kinect2State; ({ t with Kinect2State := r.1 }, r.2)

/-- Decode the members of a JSON object onto a `TurtleState`, left to right. A member
whose name resolves to no field is skipped (`json.Unmarshal` does not reject unknown
fields); a type error is saved and decoding goes on. -/
def unmarshalTurtle (fold : String → String) :
    List (String × Json) → TurtleState → Option JsonError → TurtleState × Option JsonError
  | [], t, e => (t, e)
  | (k, v) :: rest, t, e =>
    match findField fold k with
    | none => unmarshalTurtle fold rest t e
    | some f =>
      let r := setField f v t
      unmarshalTurtle fold rest r.1 (saveError e r.2)

/-- Decode one value of the `turtles` object. The decoder starts every map element from
the zero value of `*TurtleState` (the nil pointer), never from the entry already in the
map: `null` leaves nil, an object is decoded onto a freshly allocated zero struct, and any
other value allocates the zero struct and reports a type error. -/
def decodeTurtleElem (fold : String → String) (v : Json) :
    Option TurtleState × Option JsonError :=
  match v with
  | .null => (none, none)
  | .obj ms =>
    let r := unmarshalTurtle fold ms TurtleState.zero none
    (some r.1, r.2)
  | other => (some TurtleState.zero, some (.typeError other.kind "TurtleState"))

/-- Store the members of the `turtles` object into the map, left to right: the existing
map is reused and each member replaces the entry under its key. -/
def storeTurtles (fold : String → String) :
    List (String × Json) → TurtleMap → Option JsonError → TurtleMap × Option JsonError
  | [], m, e => (m, e)
  | (k, v) :: rest, m, e =>
    let r := decodeTurtleElem fold v
    storeTurtles fold rest (mapSet m k r.1) (saveError e r.2)

/-- Decode the value of the member `turtles`: `null` sets the map to nil, an object is
stored into the existing map, anything else is a type error. -/
def decodeTurtles (fold : String → String) (v : Json) (m : TurtleMap) :
    TurtleMap × Option JsonError :=
  match v with
  | .null => ([], none)
  | .obj ms => storeTurtles fold ms m none
  | other => (m, some (.typeError other.kind "turtles"))

/-- The fields of `api.State`, in declaration order. -/
inductive SField where
  | command
  | turtles
deriving DecidableEq, Repr

/-- The `json:"..."` tag of each field of `api.State`. -/
def SField.tag : SField → String
  | .command => "command"
  | .turtles => "turtles"

/-- Field resolution for `api.State`: exact tag first, then the first tag equal after
case folding. -/
def findStateField (fold : String → String) (key : String) : Option SField :=
  match [SField.command, SField.turtles].find? (fun f => decide (f.tag = key)) with
  | some f => some f
  | none => [SField.command, SField.turtles].find? (fun f => decide (fold f.tag = fold key))

/-- Decode the members of the payload object onto a `State`, left to right. -/
def unmarshalState (fold : String → String) :
    List (String × Json) → State → Option JsonError → State × Option JsonError
  | [], st, e => (st, e)
  | (k, v) :: rest, st, e =>
    match findStateField fold k with
    | none => unmarshalState fold rest st e
    | some .command =>
      let r := storeString "command" v st.Command
      unmarshalState fold rest { st with Command := r.1 } (saveError e r.2)
    | some .turtles =>
      let r := decodeTurtles fold v st.Turtles
      unmarshalState fold rest { st with Turtles := r.1 } (saveError e r.2)

/-- The call `json.Unmarshal(payload, st)` with `st : *api.State`: the value `st` points
to after the call, and the error returned. An empty payload is a syntax error before
anything is stored; `null` has no effect; an object is decoded member by member; any other
value is a type error. -/
def Unmarshal (fold : String → String) (payload : RawMessage) (st : State) :
    State × Option JsonError :=
  match payload with
  | none => (st, some .unexpectedEnd)
  | some .null => (st, none)
  | some (.obj ms) => unmarshalState fold ms st none
  | some other => (st, some (.typeError other.kind "State"))

/-! ## The connection (`pkg/trcapi/conn.go`) -/

/-- The behaviour of the libraries and of the parts of package `api` that `conn.go` calls
and that are not in the sources. -/
structure Lib where
  /-- The call `json.Unmarshal(req.Payload, &hs)` for `hs : api.Handshake`. -/
  unmarshalHandshake : Json → Except String Handshake
  /-- The call `json.Marshal(resp)` for `resp : *api.Handshake`. -/
  marshalHandshake : Handshake → Except String Json
  /-- The case folding `encoding/json` applies to member names. -/
  foldName : String → String
  /-- The result of `Validate()` on a `*api.State` payload (`none` is the nil error). -/
  validateState : State → Option String
  /-- The call `json.Marshal(st)` for `st : *api.State`. -/
  marshalState : State → Except String Json

/-- The error values `conn.go` produces; `cause` is the text of the wrapped error. -/
inductive Err where
  | decodeHandshakeRequest (cause : String)
  | unexpectedType (got : MessageType)
  | emptyHandshakePayload
  | decodeHandshake (cause : String)
  | majorMismatch
  | encodeHandshakeResponse (cause : String)
  | transport (cause : String)
  | decodeIncoming (cause : String)
  | encodePing (cause : String)
  | decodeState (cause : JsonError)
  | unmatchedType (got : MessageType)
  | ErrClosed
  | context (cause : String)
  | invalidPayload (cause : String)
  | marshal (cause : String)
  | emptyState
deriving DecidableEq, Repr

/-- The write side of the stream, seen through `encoder.Encode`: `sent` lists the
messages handed to `Encode`, in call order, and `fail k` is the error the transport
returns to call number `k` (counted from 0) when that write fails. -/
structure Encoder where
  sent : List Message
  fail : Nat → Option String

/-- One call `encoder.Encode(m)`: the encoder afterwards and the error returned. -/
def Encoder.Encode (e : Encoder) (m : Message) : Encoder × Option String :=
  ({ e with sent := e.sent ++ [m] }, e.fail e.sent.length)

/-- One call `decoder.Decode(&msg)`: the decoded message or the error. -/
abbrev DecodeResult := Except String Message

/-- A reply channel `chan *api.Message` of capacity 1. -/
structure ReplyChan where
  buf : Option Message
  closed : Bool

/-- Where the goroutine of the dispatch loop stands. -/
inductive LoopStatus where
  | running
  | returned
  | panicked
  | blocked
deriving DecidableEq, Repr

/-- The struct `Conn` together with the stream it writes to. `closed` says that `closeCh`
is closed; `errs` lists the values sent on `errCh` (a reader is assumed, as `Errors`
documents) and `errChClosed` says that `errCh` is closed; a subscriber channel of
`stateSubs` is a number paired with whether its one-element buffer holds a signal;
`ids` and `drawn` are the identifiers `api.NewMessage` draws and how many were drawn. -/
structure Conn where
  version : Version
  token : Option String
  encoder : Encoder
  closed : Bool
  errs : List Err
  errChClosed : Bool
  state : State
  stateSubs : List (Nat × Bool)
  pendingReqs : List (ULID × ReplyChan)
  loop : LoopStatus
  ids : Nat → ULID
  drawn : Nat

/-- The function `Connect` up to the point where it starts the dispatch loop: `w` is the
writer, `r` the result of the one `Decode` call on the reader. -/
def Connect (L : Lib) (ver : Version) (w : Encoder) (ids : Nat → ULID) (r : DecodeResult) :
    Except Err Conn :=
  match r with
  | .error e => .error (.decodeHandshakeRequest e)
  | .ok req =>
    if req.Typ ≠ MessageTypeHandshake then .error (.unexpectedType req.Typ)
    else
      match req.Payload with
      | none => .error .emptyHandshakePayload
      | some p =>
        match L.unmarshalHandshake p with
        | .error e => .error (.decodeHandshake e)
        | .ok hs =>
          if hs.Version.Major ≠ ver.Major then .error .majorMismatch
          else
            let v := if hs.Version.Minor > ver.Minor then ver else hs.Version
            match L.marshalHandshake { Version := v, Token := "" } with
            | .error e => .error (.encodeHandshakeResponse e)
            | .ok b =>
              let res := w.Encode (NewMessage (ids 0) req.Typ (some b) (some req.MessageID))
              match res.2 with
              | some e => .error (.transport e)
              | none =>
                .ok { version := v, token := some hs.Token, encoder := res.1,
                      closed := false, errs := [], errChClosed := false,
                      state := { Command := "", Turtles := [] }, stateSubs := [],
                      pendingReqs := [], loop := .running, ids := ids, drawn := 1 }

/-- The notification of one subscriber: `select { case ch <- struct{}{}: default: }` on a
channel of capacity 1 fills an empty buffer and skips a full one. -/
def signal (sub : Nat × Bool) : Nat × Bool :=
  if sub.2 then sub else (sub.1, true)

/-- Lines 177-187: the hand-over of a message to the request waiting for it. Without a
`parent_id`, or without a channel registered under it, nothing happens. Otherwise the
message is sent on the channel and the channel is closed; a send on a closed channel
panics, and a send on a full open channel blocks. The table itself is only read. -/
def deliver (c : Conn) (msg : Message) : Conn :=
  match msg.ParentID with
  | none => c
  | some p =>
    match mapGet c.pendingReqs p with
    | none => c
    | some ch =>
      if ch.closed then { c with loop := .panicked }
      else
        match ch.buf with
        | some _ => { c with loop := .blocked }
        | none =>
          { c with pendingReqs := mapSet c.pendingReqs p { buf := some msg, closed := true } }

/-- Lines 138-187: what the loop does with one decoded message. -/
def dispatch (L : Lib) (c : Conn) (msg : Message) : Conn :=
  if msg.Typ = MessageTypePing then
    match msg.ParentID with
    | some _ => deliver c msg
    | none =>
      let res := c.encoder.Encode
        (NewMessage (c.ids c.drawn) MessageTypePing none (some msg.MessageID))
      let c1 := { c with encoder := res.1, drawn := c.drawn + 1 }
      match res.2 with
      | some e => { c1 with errs := c1.errs ++ [.encodePing e] }
      | none => deliver c1 msg
  else if msg.Typ = MessageTypeState then
    let r := Unmarshal L.foldName msg.Payload c.state
    match r.2 with
    | some e => { c with errs := c.errs ++ [.decodeState e] }
    | none => deliver { c with state := r.1, stateSubs := c.stateSubs.map signal } msg
  else
    { c with errs := c.errs ++ [.unmatchedType msg.Typ], loop := .returned }

/-- One iteration of the dispatch loop (lines 122-188), given the result of its `Decode`
call. A loop that has returned, panicked or blocked does nothing more. -/
def iterate (L : Lib) (c : Conn) (r : DecodeResult) : Conn :=
  if c.loop ≠ .running then c
  else if c.closed then { c with errChClosed := true, loop := .returned }
  else
    match r with
    | .error e => { c with errs := c.errs ++ [.decodeIncoming e], loop := .returned }
    | .ok msg => dispatch L c msg

/-- The dispatch loop run over the successive results of `Decode`. -/
def runLoop (L : Lib) (c : Conn) (rs : List DecodeResult) : Conn :=
  rs.foldl (iterate L) c

/-- The value of `ctx.Err()`: `none` while the context is not done. -/
structure Context where
  err : Option String

/-- The payload `pld` as `sendRequest` uses it: the result of `Validate()` when the value
implements `api.Validator` (`none` when it does not, or when it is valid), and the
result of `json.Marshal(pld)`. -/
structure Payload where
  validate : Option String
  marshal : Except String Json

/-- How a call of `sendRequest` stands: it returned a reply payload, it returned an
error, it panicked, or it waits on the reply channel registered under `id`. -/
inductive SendResult where
  | done (payload : RawMessage)
  | failed (err : Err)
  | panicked
  | waiting (id : ULID)

/-- Lines 223-232 of `sendRequest`: marshal, register the reply channel, write. -/
def sendRequestSend (c : Conn) (typ : MessageType) (pld : Payload) : SendResult × Conn :=
  match pld.validate with
  | some e => (.failed (.invalidPayload e), c)
  | none =>
    match pld.marshal with
    | .error e => (.failed (.marshal e), c)
    | .ok b =>
      let msg := NewMessage (c.ids c.drawn) typ (some b) none
      let res := c.encoder.Encode msg
      let c1 := { c with drawn := c.drawn + 1, encoder := res.1,
                         pendingReqs := mapSet c.pendingReqs msg.MessageID
                           { buf := none, closed := false } }
      match res.2 with
      | some e => (.failed (.transport e), c1)
      | none => (.waiting msg.MessageID, c1)

/-- The function `sendRequest` up to the point where it waits for the reply. The `select`
at its head has a `default` case, so it never blocks; when both `closeCh` and
`ctx.Done()` are ready Go chooses one of the two cases at random, and `pick` is that
choice (`true` for the case of `closeCh`). -/
def sendRequest (c : Conn) (ctx : Context) (pick : Bool) (typ : MessageType)
    (pld : Payload) : SendResult × Conn :=
  match c.closed, ctx.err with
  | true, none => (.failed .ErrClosed, c)
  | false, some e => (.failed (.context e), c)
  | true, some e => if pick then (.failed .ErrClosed, c) else (.failed (.context e), c)
  | false, none => sendRequestSend c typ pld

/-- Line 235 of `sendRequest` alone: the receive `resp := <-ch` on the channel the call
registered under `id`. A buffered message is taken out of the channel; the channel stays
closed, and registered, until the `delete` of line 239 has run. The receive waits on an
empty open channel and yields nil on an empty closed one. -/
def receiveReply (c : Conn) (id : ULID) : Option Message × Conn :=
  match mapGet c.pendingReqs id with
  | none => (none, c)
  | some ch =>
    match ch.buf with
    | some m =>
      (some m, { c with pendingReqs := mapSet c.pendingReqs id { ch with buf := none } })
    | none => (none, c)

/-- Lines 238-240 of `sendRequest` alone: `delete(c.pendingReqs, msg.MessageID)`. -/
def removeRegistration (c : Conn) (id : ULID) : Conn :=
  { c with pendingReqs := mapDelete c.pendingReqs id }

/-- Lines 235-241 of `sendRequest` taken together, for a waiter that runs them without
the loop dispatching anything in between: the receive `resp := <-ch` on the channel the
call registered under `id`, then the removal of the registration. The receive waits while
the channel is empty and open; a closed empty channel yields nil, which `resp.Payload`
dereferences. -/
def awaitReply (c : Conn) (id : ULID) : SendResult × Conn :=
  match mapGet c.pendingReqs id with
  | none => (.waiting id, c)
  | some ch =>
    match ch.buf with
    | some m => (.done m.Payload, { c with pendingReqs := mapDelete c.pendingReqs id })
    | none => if ch.closed then (.panicked, c) else (.waiting id, c)

/-- The payload of `Ping`: the nil interface, which implements no `Validator` and which
`json.Marshal` encodes as `null`. -/
def nilPayload : Payload :=
  { validate := none, marshal := .ok .null }

/-- The method `Ping`, up to the wait for the reply. -/
def Ping (c : Conn) (ctx : Context) (pick : Bool) : SendResult × Conn :=
  sendRequest c ctx pick MessageTypePing nilPayload

/-- The method `SetState`, up to the wait for the reply. -/
def SetState (L : Lib) (c : Conn) (ctx : Context) (pick : Bool) (st : State) :
    SendResult × Conn :=
  sendRequest c ctx pick MessageTypeState
    { validate := L.validateState st, marshal := L.marshalState st }

/-- The method `SetCommand`, up to the wait for the reply. -/
def SetCommand (L : Lib) (c : Conn) (ctx : Context) (pick : Bool) (cmd : String) :
    SendResult × Conn :=
  SetState L c ctx pick { Command := cmd, Turtles := [] }

/-- The result of a call that may panic. -/
inductive Outcome (α : Type) where
  | ret (a : α)
  | panic (reason : String)

/-- The method `Close`: `close(c.closeCh)` panics on a channel that is already closed;
otherwise every subscriber channel is removed from `stateSubs` and closed, and the
method returns nil. -/
def Close (c : Conn) : Outcome Conn :=
  if c.closed then .panic "close of closed channel"
  else .ret { c with closed := true, stateSubs := [] }

/-- The method `State`: a deep copy of the current snapshot. -/
def Conn.State (c : Conn) : State :=
  c.state

/-- The method `SetTurtleState`, up to the wait for the reply: an empty mapping (the nil
map included) is refused before `SetState` is called. -/
def SetTurtleState (L : Lib) (c : Conn) (ctx : Context) (pick : Bool) (st : TurtleMap) :
    SendResult × Conn :=
  if st.length = 0 then (.failed .emptyState, c)
  else SetState L c ctx pick { Command := "", Turtles := st }

/-- The channel `make(chan struct{}, 1)` returns: one that is not in `stateSubs`. -/
def newChan (subs : List (Nat × Bool)) : Nat :=
  (subs.map Prod.fst).foldr max 0 + 1

/-- The method `SubscribeStateChanges`: the same `select` as at the head of
`sendRequest`, then the registration of a new channel of capacity 1 with an empty buffer.
The first result is the error or the channel handed to the subscriber. -/
def SubscribeStateChanges (c : Conn) (ctx : Context) (pick : Bool) : Except Err Nat × Conn :=
  match c.closed, ctx.err with
  | true, none => (.error .ErrClosed, c)
  | false, some e => (.error (.context e), c)
  | true, some e => if pick then (.error .ErrClosed, c) else (.error (.context e), c)
  | false, none =>
    (.ok (newChan c.stateSubs),
     { c with stateSubs := mapSet c.stateSubs (newChan c.stateSubs) false })

/-! ## A concrete library instance

Versions written `MAJOR.MINOR.PATCH` in decimal digits, ASCII case folding, and the plain
JSON encoding of `api.State`. It instantiates `Lib` wherever a concrete run is needed. -/

/-- Split a text at every dot. -/
def splitDots : List Char → List (List Char)
  | [] => [[]]
  | c :: cs =>
    match splitDots cs with
    | [] => [[c]]
    | h :: t => if c = '.' then [] :: h :: t else (c :: h) :: t

/-- Read a non-empty run of decimal digits. -/
def parseDigits (cs : List Char) : Option Nat :=
  if cs = [] then none
  else cs.foldl (fun acc c =>
    match acc with
    | none => none
    | some n => if c.isDigit then some (10 * n + (c.toNat - 48)) else none) (some 0)

/-- Read one numeric component of a version as `semver` does: decimal digits only, no
leading zero, and a value that fits 64 bits. -/
def parseComponent (cs : List Char) : Option Nat :=
  match cs with
  | '0' :: _ :: _ => none
  | _ =>
    match parseDigits cs with
    | some n => if n < 2 ^ 64 then some n else none
    | none => none

/-- Read a version written `MAJOR.MINOR.PATCH`. -/
def parseVersion (s : String) : Option Version :=
  match (splitDots s.data).map parseComponent with
  | [some a, some b, some c] => some { Major := a, Minor := b, Patch := c, Pre := [], Build := [] }
  | _ => none

/-- Write a version as `MAJOR.MINOR.PATCH`. -/
def formatVersion (v : Version) : String :=
  toString v.Major ++ "." ++ toString v.Minor ++ "." ++ toString v.Patch

/-- Decode `{"version": "...", "token": "..."}`; a member that is absent leaves the zero
value of its field. -/
def plainUnmarshalHandshake (j : Json) : Except String Handshake :=
  match j with
  | .obj ms =>
    match mapGet ms "version" with
    | some (.str s) =>
      match parseVersion s with
      | none => .error "invalid version"
      | some v =>
        match mapGet ms "token" with
        | some (.str t) => .ok { Version := v, Token := t }
        | some _ => .error "invalid token"
        | none => .ok { Version := v, Token := "" }
    | some _ => .error "invalid version"
    | none =>
      match mapGet ms "token" with
      | some (.str t) =>
        .ok { Version := { Major := 0, Minor := 0, Patch := 0, Pre := [], Build := [] },
              Token := t }
      | some _ => .error "invalid token"
      | none =>
        .ok { Version := { Major := 0, Minor := 0, Patch := 0, Pre := [], Build := [] },
              Token := "" }
  | _ => .error "handshake is not an object"

/-- Encode a handshake as `{"version": "...", "token": "..."}`. -/
def plainMarshalHandshake (h : Handshake) : Except String Json :=
  .ok (.obj [("version", .str (formatVersion h.Version)), ("token", .str h.Token)])

/-- The JSON encoding of the value of one field of a `TurtleState`. -/
def TurtleState.field (t : TurtleState) : TField → Json
  | .visionstatus => .bool t.VisionStatus
  | .motionstatus => .bool t.MotionStatus
  | .worldmodelstatus => .bool t.WorldmodelStatus
  | .appmanstatus => .bool t.AppmanStatus
  | .restartcountmotion => .num (.uint t.RestartCountMotion)
  | .restartcountvision => .num (.uint t.RestartCountVision)
  | .restartcountworldmodel => .num (.uint t.RestartCountWorldmodel)
  | .ballfound => .str t.BallFound
  | .localizationstatus => .bool t.LocalizationStatus
  | .cpb => .str t.CPB
  | .batteryvoltage => .num (.uint t.BatteryVoltage)
  | .emergencystatus => .num (.uint t.EmergencyStatus)
  | .role => .str t.Role
  | .refboxrole => .str t.RefBoxRole
  | .robotinfield => .bool t.RobotInField
  | .robotembutton => .bool t.RobotEmergencyButton
  | .homegoal => .str t.HomeGoal
  | .teamcolor => .str t.TeamColor
  | .activedevpc => .num (.uint t.ActiveDevPC)
  | .kinect1_state => .str t.Kinect1State
  | .kinect2_state => .str t.Kinect2State

/-- Encode a map entry: a nil pointer is `null`, a record is the object of all its
fields (no field of `TurtleState` is tagged `omitempty`). -/
def marshalTurtle (t : Option TurtleState) : Json :=
  match t with
  | none => .null
  | some r => .obj (TField.all.map (fun f => (f.tag, r.field f)))

/-- Encode a `State`; both fields are tagged `omitempty`, and the keys of a map are
written in sorted order. -/
def plainMarshalState (st : State) : Except String Json :=
  .ok (.obj ((if st.Command = "" then [] else [("command", Json.str st.Command)]) ++
    (if st.Turtles = [] then []
     else [("turtles", Json.obj
       ((st.Turtles.mergeSort (fun a b => decide (a.1 ≤ b.1))).map
         (fun kv => (kv.1, marshalTurtle kv.2))))])))

/-- The folding of one character of a member name: ASCII letters to upper case, and the
two letters outside ASCII that fold onto ASCII ones, U+017F onto `S` and U+212A onto
`K`. -/
def foldChar (c : Char) : Char :=
  if c = Char.ofNat 0x17F then 'S'
  else if c = Char.ofNat 0x212A then 'K'
  else c.toUpper

/-- Case folding of a member name, as far as it can make a name equal to an ASCII tag. -/
def asciiFold (s : String) : String :=
  String.mk (s.data.map foldChar)

/-- The concrete library instance. -/
def plainLib : Lib :=
  { unmarshalHandshake := plainUnmarshalHandshake
    marshalHandshake := plainMarshalHandshake
    foldName := asciiFold
    validateState := fun _ => none
    marshalState := plainMarshalState }

/-! ## What a state payload names -/

/-- Whether some member of the payload object resolves to the field `Turtles` and has the
value `null`. -/
def nullsTurtles (fold : String → String) : List (String × Json) → Bool
  | [] => false
  | (k, v) :: rest =>
    (match findStateField fold k, v with
     | some .turtles, .null => true
     | _, _ => false) || nullsTurtles fold rest

/-- The turtle ids a payload object mentions: the member names of every object that is
the value of a member resolving to the field `Turtles`. -/
def mentioned (fold : String → String) : List (String × Json) → List String
  | [] => []
  | (k, v) :: rest =>
    (match findStateField fold k, v with
     | some .turtles, .obj tm => tm.map Prod.fst
     | _, _ => []) ++ mentioned fold rest

/-- The members of a payload that is a JSON object; any other payload has none. -/
def payloadMembers : RawMessage → List (String × Json)
  | some (.obj ms) => ms
  | _ => []

/-! ## What a run of the loop merges -/

/-- Whether the loop, given this result of `Decode`, merges a state update into the
snapshot: the loop runs, the connection is open, the message is of type state and
`json.Unmarshal` returns no error. -/
def merges (L : Lib) (c : Conn) (r : DecodeResult) : Bool :=
  match r with
  | .error _ => false
  | .ok msg =>
    decide (c.loop = .running) && !c.closed && decide (msg.Typ = MessageTypeState) &&
      (Unmarshal L.foldName msg.Payload c.state).2.isNone

/-- The number of state updates the loop merges over the successive results of
`Decode`. -/
def mergedCount (L : Lib) : Conn → List DecodeResult → Nat
  | _, [] => 0
  | c, r :: rest => (if merges L c r then 1 else 0) + mergedCount L (iterate L c r) rest

/-- A reply channel as the code leaves it: empty, or closed after its one message. -/
def chanSound (ch : ReplyChan) : Bool :=
  ch.buf.isNone || ch.closed

/-- Every reply channel in the pending-request table is as the code leaves it. -/
def replyChansSound (c : Conn) : Bool :=
  c.pendingReqs.all (fun kv => chanSound kv.2)

/-! ## Concrete inputs -/

/-- The package variable `DefaultVersion`, `semver.MustParse("1.0.0")`. -/
def DefaultVersion : Version :=
  { Major := 1, Minor := 0, Patch := 0, Pre := [], Build := [] }

/-- A writer on which nothing was written yet and on which every write succeeds. -/
def quietEncoder : Encoder :=
  { sent := [], fail := fun _ => none }

/-- A writer on which every write fails. -/
def brokenEncoder : Encoder :=
  { sent := [], fail := fun _ => some "broken pipe" }

/-- An identifier supply. -/
def seqIds : Nat → ULID :=
  fun n => 100 + n

/-- A handshake request for version `1.3.0` with a token. -/
def helloRequest : Message :=
  { Typ := MessageTypeHandshake, MessageID := 7, ParentID := none,
    Payload := some (.obj [("version", .str "1.3.0"), ("token", .str "secret")]) }

/-- The connection in its state right after a handshake for version `1.0.0`. -/
def freshConn : Conn :=
  { version := DefaultVersion, token := some "secret",
    encoder := { sent := [], fail := fun _ => none },
    closed := false, errs := [], errChClosed := false,
    state := { Command := "", Turtles := [] }, stateSubs := [], pendingReqs := [],
    loop := .running, ids := seqIds, drawn := 1 }

/-- The connection `Connect` returns for `helloRequest` against `DefaultVersion` on
`quietEncoder` with `seqIds`. -/
def helloConn : Conn :=
  { freshConn with
    encoder :=
      { sent := [{ Typ := MessageTypeHandshake, MessageID := 100, ParentID := some 7,
                   Payload := some (.obj [("version", .str "1.0.0"), ("token", .str "")]) }],
        fail := fun _ => none } }

/-- The state payload `{"turtles": {id: {"batteryvoltage": n}}}`. -/
def batteryUpdate (id : String) (n : Nat) : RawMessage :=
  some (.obj [("turtles", .obj [(id, .obj [("batteryvoltage", .num (.uint n))])])])

/-- An unsolicited message of type state. -/
def stateMessage (id : ULID) (payload : RawMessage) : Message :=
  { Typ := MessageTypeState, MessageID := id, ParentID := none, Payload := payload }

/-- The zero record with the battery voltage set. -/
def batteryOnly (n : Nat) : TurtleState :=
  { TurtleState.zero with BatteryVoltage := n }

/-- A record with vision up and battery at 50. -/
def turtleOne : TurtleState :=
  { TurtleState.zero with VisionStatus := true, BatteryVoltage := 50 }

/-- An open connection whose snapshot holds the turtle `T1`. -/
def connWithT1 : Conn :=
  { freshConn with state := { Command := "start", Turtles := [("T1", some turtleOne)] } }

/-- A context that is not done. -/
def liveContext : Context :=
  { err := none }

/-- A context that was cancelled. -/
def cancelledContext : Context :=
  { err := some "context canceled" }

/-- The connection after a caller has sent a ping request on `freshConn` and waits for
the reply: the request drew the identifier `101`. -/
def connWaiting : Conn :=
  (Ping freshConn liveContext true).2

/-- A ping message that is a reply to the message `parent`. -/
def pong (id parent : ULID) : Message :=
  { Typ := MessageTypePing, MessageID := id, ParentID := some parent, Payload := none }

/-- The connection `freshConn` after `Close`. -/
def closedConn : Conn :=
  { freshConn with closed := true }

/-- An unsolicited ping, the liveness probe of the peer. -/
def probe (id : ULID) : Message :=
  { Typ := MessageTypePing, MessageID := id, ParentID := none, Payload := none }

/-- A handshake message that arrives after the setup. -/
def lateHandshake : Message :=
  { Typ := MessageTypeHandshake, MessageID := 8, ParentID := some 101,
    Payload := some (.obj [("version", .str "1.0.0")]) }

/-- The connection `freshConn` after one subscription: the subscriber holds channel 1. -/
def connSubscribed : Conn :=
  (SubscribeStateChanges freshConn liveContext true).2

/-- The connection `freshConn` on a writer that fails. -/
def connBrokenPipe : Conn :=
  { freshConn with encoder := brokenEncoder }

/-- A state message, reply to the request `101`, whose payload sets the command and then
gives a number where the object of turtles is expected. -/
def badStateMessage : Message :=
  { Typ := MessageTypeState, MessageID := 9, ParentID := some 101,
    Payload := some (.obj [("command", .str "stop"), ("turtles", .num (.uint 5))]) }

/-! ## Handshake -/

/-- C1. For every local version, writer and handshake request that decodes to a handshake
whose major version equals the local one, `Connect` passes the negotiation: there is a
negotiated version whose minor is `min(local minor, peer minor)`, the only errors
`Connect` can still return are the ones of encoding and writing the reply, and when the
reply is written `Connect` returns a connection that stores this version. -/
theorem Connect_negotiates_min_minor (L : Lib) (ver : Version) (w : Encoder)
    (ids : Nat → ULID) (req : Message) (p : Json) (hs : Handshake)
    (hty : req.Typ = MessageTypeHandshake) (hp : req.Payload = some p)
    (hdec : L.unmarshalHandshake p = .ok hs) (hmaj : hs.Version.Major = ver.Major) :
    ∃ v : Version, v.Minor = min ver.Minor hs.Version.Minor ∧
      match L.marshalHandshake { Version := v, Token := "" }, w.fail w.sent.length with
      | .ok _, none => ∃ c, Connect L ver w ids (.ok req) = .ok c ∧ c.version = v
      | .ok _, some e => Connect L ver w ids (.ok req) = .error (.transport e)
      | .error e, _ => Connect L ver w ids (.ok req) = .error (.encodeHandshakeResponse e) := by
  refine ⟨if hs.Version.Minor > ver.Minor then ver else hs.Version, ?_, ?_⟩
  · by_cases h : hs.Version.Minor > ver.Minor
    · simp only [h, if_true]; omega
    · simp only [h, if_false]; omega
  · simp only [Connect, hty, hp, hdec, hmaj, ne_eq, not_true_eq_false, if_false]
    cases hm : L.marshalHandshake
        { Version := if hs.Version.Minor > ver.Minor then ver else hs.Version, Token := "" } with
    | error e => simp
    | ok b =>
      cases hf : w.fail w.sent.length with
      | none => simp [Encoder.Encode, hf]
      | some e => simp [Encoder.Encode, hf]

/-- A handshake for `1.3.0` against the local `1.0.0` on a working writer. -/
theorem Connect_negotiates_min_minor_witness :
    ∃ v : Version, v.Minor = min DefaultVersion.Minor 3 ∧
      ∃ c, Connect plainLib DefaultVersion quietEncoder seqIds (.ok helloRequest) = .ok c ∧
        c.version = v :=
  Connect_negotiates_min_minor plainLib DefaultVersion quietEncoder seqIds helloRequest
    (.obj [("version", .str "1.3.0"), ("token", .str "secret")])
    { Version := { Major := 1, Minor := 3, Patch := 0, Pre := [], Build := [] },
      Token := "secret" } rfl rfl rfl rfl

/-- C6. `Connect` returns an error and no connection when the first message is not of
handshake type, when its payload is empty, and when its payload decodes to a handshake
whose major version differs from the local one; this holds for every writer. -/
theorem Connect_fails_on_bad_handshake (L : Lib) (ver : Version) (w : Encoder)
    (ids : Nat → ULID) (req : Message)
    (h : req.Typ ≠ MessageTypeHandshake ∨ req.Payload = none ∨
      ∃ p hs, req.Payload = some p ∧ L.unmarshalHandshake p = .ok hs ∧
        hs.Version.Major ≠ ver.Major) :
    ∃ e, Connect L ver w ids (.ok req) = .error e ∧
      (req.Typ ≠ MessageTypeHandshake → e = .unexpectedType req.Typ) ∧
      (req.Typ = MessageTypeHandshake → req.Payload = none → e = .emptyHandshakePayload) ∧
      (req.Typ = MessageTypeHandshake → req.Payload ≠ none → e = .majorMismatch) := by
  by_cases hty : req.Typ = MessageTypeHandshake
  · rcases h with h | h | ⟨p, hs, hp, hdec, hmaj⟩
    · exact absurd hty h
    · exact ⟨.emptyHandshakePayload, by simp [Connect, hty, h], by simp [hty], by simp,
        by simp [h]⟩
    · exact ⟨.majorMismatch, by simp [Connect, hty, hp, hdec, hmaj], by simp [hty],
        by simp [hp], by simp⟩
  · exact ⟨.unexpectedType req.Typ, by simp [Connect, hty], by simp,
      fun h1 => absurd h1 hty, fun h1 => absurd h1 hty⟩

/-- A ping as first message, a handshake without payload, and a handshake for `2.0.0`
against the local `1.0.0`. -/
theorem Connect_fails_on_bad_handshake_witness :
    (∃ e, Connect plainLib DefaultVersion quietEncoder seqIds
        (.ok { Typ := MessageTypePing, MessageID := 7, ParentID := none, Payload := none })
          = .error e ∧ e = .unexpectedType MessageTypePing) ∧
    (∃ e, Connect plainLib DefaultVersion quietEncoder seqIds
        (.ok { Typ := MessageTypeHandshake, MessageID := 7, ParentID := none,
               Payload := none }) = .error e ∧ e = .emptyHandshakePayload) ∧
    (∃ e, Connect plainLib DefaultVersion quietEncoder seqIds
        (.ok { Typ := MessageTypeHandshake, MessageID := 7, ParentID := none,
               Payload := some (.obj [("version", .str "2.0.0")]) }) = .error e ∧
          e = .majorMismatch) := by
  refine ⟨?_, ?_, ?_⟩
  · obtain ⟨e, he, h1, _, _⟩ := Connect_fails_on_bad_handshake plainLib DefaultVersion
      quietEncoder seqIds
      { Typ := MessageTypePing, MessageID := 7, ParentID := none, Payload := none }
      (Or.inl (by decide))
    exact ⟨e, he, h1 (by decide)⟩
  · obtain ⟨e, he, _, h2, _⟩ := Connect_fails_on_bad_handshake plainLib DefaultVersion
      quietEncoder seqIds
      { Typ := MessageTypeHandshake, MessageID := 7, ParentID := none, Payload := none }
      (Or.inr (Or.inl rfl))
    exact ⟨e, he, h2 rfl rfl⟩
  · obtain ⟨e, he, _, _, h3⟩ := Connect_fails_on_bad_handshake plainLib DefaultVersion
      quietEncoder seqIds
      { Typ := MessageTypeHandshake, MessageID := 7, ParentID := none,
        Payload := some (.obj [("version", .str "2.0.0")]) }
      (Or.inr (Or.inr ⟨.obj [("version", .str "2.0.0")],
        { Version := { Major := 2, Minor := 0, Patch := 0, Pre := [], Build := [] },
          Token := "" }, rfl, rfl, by decide⟩))
    exact ⟨e, he, h3 rfl (by simp)⟩

/-- C7. Every handshake succeeds whose request is of handshake type, decodes to a
handshake with the local major version, and whose reply is encoded and accepted by the
writer: `Connect` then returns a connection and has handed exactly one message to the
writer, of type handshake, whose `parent_id` is the `message_id` of the request and whose
payload is the encoding of the negotiated version, the one stored on the connection.
Conversely, whenever `Connect` returns a connection it has written exactly that one
message. -/
theorem Connect_writes_one_reply (L : Lib) (ver : Version) (w : Encoder)
    (ids : Nat → ULID) :
    (∀ (req : Message) (p : Json) (hs : Handshake) (b : Json),
      req.Typ = MessageTypeHandshake → req.Payload = some p →
      L.unmarshalHandshake p = .ok hs → hs.Version.Major = ver.Major →
      L.marshalHandshake
        { Version := if hs.Version.Minor > ver.Minor then ver else hs.Version,
          Token := "" } = .ok b →
      w.fail w.sent.length = none →
      ∃ c, Connect L ver w ids (.ok req) = .ok c ∧
        c.version = (if hs.Version.Minor > ver.Minor then ver else hs.Version) ∧
        L.marshalHandshake { Version := c.version, Token := "" } = .ok b ∧
        c.encoder.sent = w.sent ++
          [{ Typ := MessageTypeHandshake, MessageID := ids 0,
             ParentID := some req.MessageID, Payload := some b }]) ∧
    (∀ (r : DecodeResult) (c : Conn), Connect L ver w ids r = .ok c →
      ∃ req b, r = .ok req ∧
        L.marshalHandshake { Version := c.version, Token := "" } = .ok b ∧
        c.encoder.sent = w.sent ++
          [{ Typ := MessageTypeHandshake, MessageID := ids 0,
             ParentID := some req.MessageID, Payload := some b }]) := by
  constructor
  · intro req p hs b hty hp hdec hmaj hm hw
    simp [Connect, hty, hp, hdec, hmaj, hm, Encoder.Encode, hw, NewMessage]
  · intro r c h
    cases r with
    | error e => simp [Connect] at h
    | ok req =>
      simp only [Connect] at h
      split at h
      · cases h
      · rename_i hty
        simp only [ne_eq, not_not] at hty
        split at h
        · cases h
        · split at h
          · cases h
          · split at h
            · cases h
            · split at h
              · cases h
              · rename_i b hm
                split at h
                · cases h
                · injection h with h
                  subst h
                  exact ⟨req, b, rfl, hm, by simp [Encoder.Encode, NewMessage, hty]⟩

/-- The handshake for `1.3.0` against the local `1.0.0` on a working writer: `Connect`
returns a connection for `1.0.0` and has written the one reply. -/
theorem Connect_writes_one_reply_witness :
    ∃ c, Connect plainLib DefaultVersion quietEncoder seqIds (.ok helloRequest) = .ok c ∧
      c.version = DefaultVersion ∧
      c.encoder.sent =
        [{ Typ := MessageTypeHandshake, MessageID := 100, ParentID := some 7,
           Payload := some (.obj [("version", .str "1.0.0"), ("token", .str "")]) }] := by
  obtain ⟨c, h1, h2, _, h4⟩ :=
    (Connect_writes_one_reply plainLib DefaultVersion quietEncoder seqIds).1 helloRequest
      (.obj [("version", .str "1.3.0"), ("token", .str "secret")])
      { Version := { Major := 1, Minor := 3, Patch := 0, Pre := [], Build := [] },
        Token := "secret" }
      (.obj [("version", .str "1.0.0"), ("token", .str "")]) rfl rfl rfl rfl rfl rfl
  exact ⟨c, h1, h2, h4⟩

/-! ## State merge -/

theorem mapGet_mapSet_self {κ α : Type} [DecidableEq κ] (m : List (κ × α)) (k : κ) (v : α) :
    mapGet (mapSet m k v) k = some v := by
  induction m with
  | nil => simp [mapSet, mapGet]
  | cons a rest ih =>
    obtain ⟨k1, w⟩ := a
    by_cases h : k1 = k
    · simp [mapSet, mapGet, h]
    · simp [mapSet, mapGet, h, ih]

theorem mapGet_mapSet_ne {κ α : Type} [DecidableEq κ] (m : List (κ × α)) (k id : κ) (v : α)
    (h : k ≠ id) : mapGet (mapSet m k v) id = mapGet m id := by
  induction m with
  | nil => simp [mapSet, mapGet, h]
  | cons a rest ih =>
    obtain ⟨k1, w⟩ := a
    by_cases h1 : k1 = k
    · subst h1
      simp [mapSet, mapGet, h]
    · by_cases h2 : k1 = id
      · subst h2
        simp [mapSet, mapGet, h1]
      · simp [mapSet, mapGet, h1, h2, ih]

theorem mapGet_mapDelete_self {κ α : Type} [DecidableEq κ] (m : List (κ × α)) (k : κ) :
    mapGet (mapDelete m k) k = none := by
  induction m with
  | nil => simp [mapDelete, mapGet]
  | cons a rest ih =>
    obtain ⟨k1, w⟩ := a
    by_cases h : k1 = k
    · simp [mapDelete, h, ih]
    · simp [mapDelete, mapGet, h, ih]

/-- Storing the members of a `turtles` object leaves every key it does not name alone. -/
theorem storeTurtles_frame (fold : String → String) (id : String) :
    ∀ (tm : List (String × Json)) (m : TurtleMap) (e : Option JsonError),
      id ∉ tm.map Prod.fst → mapGet (storeTurtles fold tm m e).1 id = mapGet m id := by
  intro tm
  induction tm with
  | nil => intro m e _; rfl
  | cons a rest ih =>
    intro m e hid
    obtain ⟨k, v⟩ := a
    simp only [List.map_cons, List.mem_cons, not_or] at hid
    simp only [storeTurtles]
    rw [ih _ _ hid.2, mapGet_mapSet_ne _ _ _ _ (Ne.symm hid.1)]

/-- Decoding a payload object that does not set `turtles` to null leaves every turtle it
does not mention alone. -/
theorem unmarshalState_frame (fold : String → String) (id : String) :
    ∀ (ms : List (String × Json)) (st : State) (e : Option JsonError),
      nullsTurtles fold ms = false → id ∉ mentioned fold ms →
      mapGet (unmarshalState fold ms st e).1.Turtles id = mapGet st.Turtles id := by
  intro ms
  induction ms with
  | nil => intro st e _ _; rfl
  | cons a rest ih =>
    intro st e hnull hid
    obtain ⟨k, v⟩ := a
    simp only [nullsTurtles, Bool.or_eq_false_iff] at hnull
    simp only [mentioned, List.mem_append, not_or] at hid
    simp only [unmarshalState]
    cases hf : findStateField fold k with
    | none => simpa using ih st e hnull.2 hid.2
    | some f =>
      cases f with
      | command =>
        simp only
        rw [ih _ _ hnull.2 hid.2]
      | turtles =>
        simp only
        rw [ih _ _ hnull.2 hid.2]
        simp only [hf] at hnull hid
        cases v with
        | null => simp at hnull
        | obj tm =>
          simp only [decodeTurtles]
          exact storeTurtles_frame fold id tm st.Turtles none hid.1
        | bool b => rfl
        | num n => rfl
        | str s => rfl
        | arr l => rfl

/-- The snapshot after the loop has dispatched a state message on an open connection: the
decoded copy when `json.Unmarshal` returned no error, the old snapshot otherwise. -/
theorem iterate_state_snapshot (L : Lib) (c : Conn) (msg : Message)
    (hrun : c.loop = .running) (hopen : c.closed = false)
    (hty : msg.Typ = MessageTypeState) :
    (iterate L c (.ok msg)).state =
      match (Unmarshal L.foldName msg.Payload c.state).2 with
      | none => (Unmarshal L.foldName msg.Payload c.state).1
      | some _ => c.state := by
  have hne : ¬ MessageTypeState = MessageTypePing := by decide
  simp only [iterate, hrun, hopen, dispatch, hty, hne, ne_eq, not_true_eq_false, if_false,
    if_true, Bool.false_eq_true]
  cases he : (Unmarshal L.foldName msg.Payload c.state).2 with
  | some e => rfl
  | none =>
    simp only [deliver]
    split
    · rfl
    · split
      · rfl
      · split
        · rfl
        · split <;> rfl

/-- C2, as stated, fails: the payload `{"turtles": null}` mentions no turtle, and after
its merge the turtle `T1` of the snapshot is gone (`json.Unmarshal` sets a map to nil on
`null`). -/
theorem state_merge_null_drops_turtles :
    mapGet connWithT1.state.Turtles "T1" = some (some turtleOne) ∧
    "T1" ∉ mentioned plainLib.foldName (payloadMembers (some (.obj [("turtles", .null)]))) ∧
    mapGet (iterate plainLib connWithT1
      (.ok (stateMessage 9 (some (.obj [("turtles", .null)]))))).state.Turtles "T1" = none := by
  refine ⟨rfl, ?_, rfl⟩
  simp [mentioned, payloadMembers, findStateField, SField.tag]

/-- The connection `Connect` returns is open, its loop runs and its snapshot is the
empty `State`. -/
theorem Connect_starts_open (L : Lib) (ver : Version) (w : Encoder) (ids : Nat → ULID)
    (r : DecodeResult) (c : Conn) (h : Connect L ver w ids r = .ok c) :
    c.loop = .running ∧ c.closed = false ∧ c.state = { Command := "", Turtles := [] } := by
  cases r with
  | error e => simp [Connect] at h
  | ok req =>
    simp only [Connect] at h
    split at h
    · cases h
    · split at h
      · cases h
      · split at h
        · cases h
        · split at h
          · cases h
          · split at h
            · cases h
            · split at h
              · cases h
              · injection h with h
                subst h
                exact ⟨rfl, rfl, rfl⟩

/-- The decoding of `{"turtles": {t: {"batteryvoltage": n}}}` onto any snapshot. -/
theorem Unmarshal_batteryUpdate (fold : String → String) (st : State) (t : String)
    (n : Nat) (hn : n < 256) :
    Unmarshal fold (batteryUpdate t n) st =
      ({ st with Turtles := mapSet st.Turtles t (some (batteryOnly n)) }, none) := by
  simp [Unmarshal, batteryUpdate, unmarshalState, findStateField, SField.tag,
    decodeTurtles, storeTurtles, decodeTurtleElem, unmarshalTurtle, findField,
    TField.all, TField.tag, setField, storeUint8, saveError, hn, batteryOnly]

/-- On every open connection, after a state message mentioning only `T1` (batteryvoltage
50) followed by one mentioning only `T2` (batteryvoltage 80), the snapshot holds `T1` with
battery 50 and `T2` with battery 80. -/
theorem battery_scenario (L : Lib) (c : Conn) (i1 i2 : ULID)
    (hrun : c.loop = .running) (hopen : c.closed = false) :
    ∃ r1 r2 : TurtleState,
      mapGet (runLoop L c [.ok (stateMessage i1 (batteryUpdate "T1" 50)),
        .ok (stateMessage i2 (batteryUpdate "T2" 80))]).state.Turtles "T1" = some (some r1) ∧
      r1.BatteryVoltage = 50 ∧
      mapGet (runLoop L c [.ok (stateMessage i1 (batteryUpdate "T1" 50)),
        .ok (stateMessage i2 (batteryUpdate "T2" 80))]).state.Turtles "T2" = some (some r2) ∧
      r2.BatteryVoltage = 80 := by
  have hstep : ∀ (d : Conn) (i : ULID) (t : String) (n : Nat), n < 256 →
      d.loop = .running → d.closed = false →
      iterate L d (.ok (stateMessage i (batteryUpdate t n))) =
        { d with
          state := { d.state with Turtles := mapSet d.state.Turtles t (some (batteryOnly n)) },
          stateSubs := d.stateSubs.map signal } := by
    intro d i t n hn hr ho
    have hne : ¬ MessageTypeState = MessageTypePing := by decide
    simp [iterate, hr, ho, dispatch, stateMessage, hne, Unmarshal_batteryUpdate _ _ _ _ hn,
      deliver]
  simp only [runLoop, List.foldl_cons, List.foldl_nil]
  have e1 := hstep c i1 "T1" 50 (by decide) hrun hopen
  have e2 := hstep (iterate L c (.ok (stateMessage i1 (batteryUpdate "T1" 50)))) i2 "T2" 80
    (by decide) (by rw [e1]; exact hrun) (by rw [e1]; exact hopen)
  rw [e2, e1]
  refine ⟨batteryOnly 50, batteryOnly 80, ?_, rfl, ?_, rfl⟩
  · simp only
    rw [mapGet_mapSet_ne _ _ _ _ (by decide), mapGet_mapSet_self]
  · simp only
    rw [mapGet_mapSet_self]

/-- C2, amended. For every open connection and every state message whose payload does
not set `turtles` to null, each turtle id that is in the snapshot and is not mentioned in
the payload is still there after the dispatch with the same record. And on every open
connection, in particular on every connection `Connect` returns, after a state message
mentioning only `T1` (batteryvoltage 50) followed by one mentioning only `T2`
(batteryvoltage 80), the snapshot holds `T1` with battery 50 and `T2` with battery 80. -/
theorem state_merge_keeps_unmentioned (L : Lib) :
    (∀ (c : Conn) (msg : Message) (id : String) (r : Option TurtleState),
      c.loop = .running → c.closed = false → msg.Typ = MessageTypeState →
      nullsTurtles L.foldName (payloadMembers msg.Payload) = false →
      id ∉ mentioned L.foldName (payloadMembers msg.Payload) →
      mapGet c.state.Turtles id = some r →
      mapGet (iterate L c (.ok msg)).state.Turtles id = some r) ∧
    (∀ (c : Conn) (i1 i2 : ULID), c.loop = .running → c.closed = false →
      ∃ r1 r2 : TurtleState,
        mapGet (runLoop L c [.ok (stateMessage i1 (batteryUpdate "T1" 50)),
          .ok (stateMessage i2 (batteryUpdate "T2" 80))]).state.Turtles "T1" = some (some r1) ∧
        r1.BatteryVoltage = 50 ∧
        mapGet (runLoop L c [.ok (stateMessage i1 (batteryUpdate "T1" 50)),
          .ok (stateMessage i2 (batteryUpdate "T2" 80))]).state.Turtles "T2" = some (some r2) ∧
        r2.BatteryVoltage = 80) ∧
    (∀ (ver : Version) (w : Encoder) (ids : Nat → ULID) (r : DecodeResult) (c : Conn)
      (i1 i2 : ULID), Connect L ver w ids r = .ok c →
      ∃ r1 r2 : TurtleState,
        mapGet (runLoop L c [.ok (stateMessage i1 (batteryUpdate "T1" 50)),
          .ok (stateMessage i2 (batteryUpdate "T2" 80))]).state.Turtles "T1" = some (some r1) ∧
        r1.BatteryVoltage = 50 ∧
        mapGet (runLoop L c [.ok (stateMessage i1 (batteryUpdate "T1" 50)),
          .ok (stateMessage i2 (batteryUpdate "T2" 80))]).state.Turtles "T2" = some (some r2) ∧
        r2.BatteryVoltage = 80) := by
  refine ⟨?_, ?_, ?_⟩
  · intro c msg id r hrun hopen hty hnull hid hin
    rw [iterate_state_snapshot L c msg hrun hopen hty, ← hin]
    cases he : (Unmarshal L.foldName msg.Payload c.state).2 with
    | some e => rfl
    | none =>
      simp only
      cases hp : msg.Payload with
      | none => rfl
      | some j =>
        rw [hp] at hnull hid
        cases j with
        | obj ms => exact unmarshalState_frame L.foldName id ms c.state none hnull hid
        | null => rfl
        | bool b => rfl
        | num n => rfl
        | str s => rfl
        | arr l => rfl
  · intro c i1 i2 hrun hopen
    exact battery_scenario L c i1 i2 hrun hopen
  · intro ver w ids r c i1 i2 h
    obtain ⟨hrun, hopen, _⟩ := Connect_starts_open L ver w ids r c h
    exact battery_scenario L c i1 i2 hrun hopen

/-- A state update for `T2` on a snapshot that holds `T1`; and the two updates of the
scenario on the connection `Connect` returns for `helloRequest`, whose snapshot is
empty. -/
theorem state_merge_keeps_unmentioned_witness :
    mapGet (iterate plainLib connWithT1
      (.ok (stateMessage 9 (batteryUpdate "T2" 80)))).state.Turtles "T1" =
        some (some turtleOne) ∧
    ∃ c, Connect plainLib DefaultVersion quietEncoder seqIds (.ok helloRequest) = .ok c ∧
      c.state.Turtles = [] ∧
      ∃ r1 r2 : TurtleState,
        mapGet (runLoop plainLib c [.ok (stateMessage 9 (batteryUpdate "T1" 50)),
          .ok (stateMessage 10 (batteryUpdate "T2" 80))]).state.Turtles "T1" =
            some (some r1) ∧
        r1.BatteryVoltage = 50 ∧
        mapGet (runLoop plainLib c [.ok (stateMessage 9 (batteryUpdate "T1" 50)),
          .ok (stateMessage 10 (batteryUpdate "T2" 80))]).state.Turtles "T2" =
            some (some r2) ∧
        r2.BatteryVoltage = 80 :=
  ⟨(state_merge_keeps_unmentioned plainLib).1 connWithT1
      (stateMessage 9 (batteryUpdate "T2" 80)) "T1" (some turtleOne) rfl rfl rfl rfl
      (by simp [mentioned, payloadMembers, batteryUpdate, stateMessage, findStateField,
        SField.tag])
      rfl,
   helloConn, rfl, rfl,
   (state_merge_keeps_unmentioned plainLib).2.2 DefaultVersion quietEncoder seqIds
      (.ok helloRequest) helloConn 9 10 rfl⟩

/-- Decoding a member into one field leaves every other field alone. -/
theorem setField_frame (g f : TField) (v : Json) (t : TurtleState) (h : g ≠ f) :
    (setField g v t).1.field f = t.field f := by
  cases g <;> cases f <;> first
    | exact absurd rfl h
    | rfl

/-- Decoding an object onto a record leaves every field that no member resolves to
alone. -/
theorem unmarshalTurtle_frame (fold : String → String) (f : TField) :
    ∀ (ms : List (String × Json)) (t : TurtleState) (e : Option JsonError),
      (∀ kv ∈ ms, findField fold kv.1 ≠ some f) →
      (unmarshalTurtle fold ms t e).1.field f = t.field f := by
  intro ms
  induction ms with
  | nil => intro t e _; rfl
  | cons a rest ih =>
    intro t e h
    obtain ⟨k, v⟩ := a
    have hk : findField fold k ≠ some f := h (k, v) (List.mem_cons_self _ _)
    have hrest : ∀ kv ∈ rest, findField fold kv.1 ≠ some f :=
      fun kv hkv => h kv (List.mem_cons_of_mem _ hkv)
    simp only [unmarshalTurtle]
    cases hf : findField fold k with
    | none => exact ih t e hrest
    | some g =>
      simp only
      rw [ih _ _ hrest]
      apply setField_frame
      intro hgf
      exact hk (by rw [hf, hgf])

theorem storeTurtles_fst_indep (fold : String → String) :
    ∀ (tm : List (String × Json)) (m : TurtleMap) (e e1 : Option JsonError),
      (storeTurtles fold tm m e).1 = (storeTurtles fold tm m e1).1 := by
  intro tm
  induction tm with
  | nil => intro m e e1; rfl
  | cons a rest ih =>
    intro m e e1
    obtain ⟨k, v⟩ := a
    simp only [storeTurtles]
    exact ih _ _ _

theorem storeTurtles_append (fold : String → String) :
    ∀ (a b : List (String × Json)) (m : TurtleMap) (e : Option JsonError),
      storeTurtles fold (a ++ b) m e =
        storeTurtles fold b (storeTurtles fold a m e).1 (storeTurtles fold a m e).2 := by
  intro a
  induction a with
  | nil => intro b m e; rfl
  | cons x rest ih =>
    intro b m e
    obtain ⟨k, v⟩ := x
    simp only [List.cons_append, storeTurtles]
    exact ih _ _ _

theorem unmarshalState_fst_indep (fold : String → String) :
    ∀ (ms : List (String × Json)) (st : State) (e e1 : Option JsonError),
      (unmarshalState fold ms st e).1 = (unmarshalState fold ms st e1).1 := by
  intro ms
  induction ms with
  | nil => intro st e e1; rfl
  | cons a rest ih =>
    intro st e e1
    obtain ⟨k, v⟩ := a
    simp only [unmarshalState]
    cases findStateField fold k with
    | none => exact ih _ _ _
    | some f =>
      cases f with
      | command => exact ih _ _ _
      | turtles => exact ih _ _ _

theorem unmarshalState_append (fold : String → String) :
    ∀ (a b : List (String × Json)) (st : State) (e : Option JsonError),
      unmarshalState fold (a ++ b) st e =
        unmarshalState fold b (unmarshalState fold a st e).1 (unmarshalState fold a st e).2 := by
  intro a
  induction a with
  | nil => intro b st e; rfl
  | cons x rest ih =>
    intro b st e
    obtain ⟨k, v⟩ := x
    simp only [List.cons_append, unmarshalState]
    cases findStateField fold k with
    | none => exact ih _ _ _
    | some f =>
      cases f with
      | command => exact ih _ _ _
      | turtles => exact ih _ _ _

/-- Members that do not resolve to `Turtles` leave the map alone. -/
theorem unmarshalState_keeps_turtles (fold : String → String) :
    ∀ (ms : List (String × Json)) (st : State) (e : Option JsonError),
      (∀ kv ∈ ms, findStateField fold kv.1 ≠ some .turtles) →
      (unmarshalState fold ms st e).1.Turtles = st.Turtles := by
  intro ms
  induction ms with
  | nil => intro st e _; rfl
  | cons a rest ih =>
    intro st e h
    obtain ⟨k, v⟩ := a
    have hk : findStateField fold k ≠ some .turtles := h (k, v) (List.mem_cons_self _ _)
    have hrest : ∀ kv ∈ rest, findStateField fold kv.1 ≠ some .turtles :=
      fun kv hkv => h kv (List.mem_cons_of_mem _ hkv)
    simp only [unmarshalState]
    cases hf : findStateField fold k with
    | none => exact ih _ _ hrest
    | some f =>
      cases f with
      | command => simp only; rw [ih _ _ hrest]
      | turtles => exact absurd hf hk

/-- Members that do not resolve to `Command` leave the command alone. -/
theorem unmarshalState_keeps_command (fold : String → String) :
    ∀ (ms : List (String × Json)) (st : State) (e : Option JsonError),
      (∀ kv ∈ ms, findStateField fold kv.1 ≠ some .command) →
      (unmarshalState fold ms st e).1.Command = st.Command := by
  intro ms
  induction ms with
  | nil => intro st e _; rfl
  | cons a rest ih =>
    intro st e h
    obtain ⟨k, v⟩ := a
    have hk : findStateField fold k ≠ some .command := h (k, v) (List.mem_cons_self _ _)
    have hrest : ∀ kv ∈ rest, findStateField fold kv.1 ≠ some .command :=
      fun kv hkv => h kv (List.mem_cons_of_mem _ hkv)
    simp only [unmarshalState]
    cases hf : findStateField fold k with
    | none => exact ih _ _ hrest
    | some f =>
      cases f with
      | command => exact absurd hf hk
      | turtles => simp only; rw [ih _ _ hrest]

/-- C3, as stated, fails: `T1` is in the snapshot with vision up, the update
`{"turtles": {"T1": {"batteryvoltage": 60}}}` does not set `visionstatus`, and after the
merge the vision flag of `T1` is down: the record was replaced, not patched. -/
theorem state_merge_resets_unset_fields :
    mapGet connWithT1.state.Turtles "T1" = some (some turtleOne) ∧
    turtleOne.VisionStatus = true ∧
    mapGet (iterate plainLib connWithT1
      (.ok (stateMessage 9 (batteryUpdate "T1" 60)))).state.Turtles "T1" =
        some (some (batteryOnly 60)) ∧
    (batteryOnly 60).VisionStatus = false :=
  ⟨rfl, rfl, rfl, rfl⟩

/-- C3, amended. For every open connection and every state message: the command is
unchanged when no member of the payload names it; and when the merge succeeds, a turtle
id whose last mention in the payload has an object as value gets the record decoded from
that object alone, starting from the zero record, so every `TurtleState` field that the
object does not set has its zero value, whatever the snapshot held before. -/
theorem state_merge_replaces_record (L : Lib) (c : Conn) (msg : Message)
    (hrun : c.loop = .running) (hopen : c.closed = false)
    (hty : msg.Typ = MessageTypeState) :
    ((∀ kv ∈ payloadMembers msg.Payload, findStateField L.foldName kv.1 ≠ some .command) →
      (iterate L c (.ok msg)).state.Command = c.state.Command) ∧
    ∀ (pre post tpre tpost ms : List (String × Json)) (k id : String),
      msg.Payload = some (.obj (pre ++ (k, .obj (tpre ++ (id, .obj ms) :: tpost)) :: post)) →
      findStateField L.foldName k = some .turtles →
      (∀ kv ∈ post, findStateField L.foldName kv.1 ≠ some .turtles) →
      id ∉ tpost.map Prod.fst →
      (Unmarshal L.foldName msg.Payload c.state).2 = none →
      ∃ r : TurtleState,
        mapGet (iterate L c (.ok msg)).state.Turtles id = some (some r) ∧
        r = (unmarshalTurtle L.foldName ms TurtleState.zero none).1 ∧
        ∀ f : TField, (∀ kv ∈ ms, findField L.foldName kv.1 ≠ some f) →
          r.field f = TurtleState.zero.field f := by
  constructor
  · intro hcmd
    rw [iterate_state_snapshot L c msg hrun hopen hty]
    cases he : (Unmarshal L.foldName msg.Payload c.state).2 with
    | some e => rfl
    | none =>
      simp only
      cases hp : msg.Payload with
      | none => rfl
      | some j =>
        rw [hp] at hcmd
        cases j with
        | obj ms => exact unmarshalState_keeps_command L.foldName ms c.state none hcmd
        | null => rfl
        | bool b => rfl
        | num n => rfl
        | str s => rfl
        | arr l => rfl
  · intro pre post tpre tpost ms k id hp hk hpost htpost hok
    refine ⟨(unmarshalTurtle L.foldName ms TurtleState.zero none).1, ?_, rfl, ?_⟩
    · rw [iterate_state_snapshot L c msg hrun hopen hty, hok]
      simp only [hp, Unmarshal]
      rw [unmarshalState_append]
      simp only [unmarshalState, hk]
      rw [unmarshalState_keeps_turtles L.foldName post _ _ hpost]
      simp only [decodeTurtles]
      rw [storeTurtles_append]
      simp only [storeTurtles]
      rw [storeTurtles_frame L.foldName id tpost _ _ htpost]
      simp only [decodeTurtleElem]
      exact mapGet_mapSet_self _ _ _
    · intro f hf
      exact unmarshalTurtle_frame L.foldName f ms TurtleState.zero none hf

/-- The update `{"turtles": {"T1": {"batteryvoltage": 60}}}` on a snapshot whose `T1` has
vision up: the command stays, and `T1` gets the record decoded from the update alone. -/
theorem state_merge_replaces_record_witness :
    (iterate plainLib connWithT1
      (.ok (stateMessage 9 (batteryUpdate "T1" 60)))).state.Command = "start" ∧
    ∃ r : TurtleState,
      mapGet (iterate plainLib connWithT1
        (.ok (stateMessage 9 (batteryUpdate "T1" 60)))).state.Turtles "T1" = some (some r) ∧
      r = (unmarshalTurtle plainLib.foldName [("batteryvoltage", .num (.uint 60))]
        TurtleState.zero none).1 ∧
      ∀ f : TField,
        (∀ kv ∈ [("batteryvoltage", Json.num (.uint 60))],
          findField plainLib.foldName kv.1 ≠ some f) →
        r.field f = TurtleState.zero.field f :=
  ⟨(state_merge_replaces_record plainLib connWithT1
      (stateMessage 9 (batteryUpdate "T1" 60)) rfl rfl rfl).1
      (by
        intro kv hkv
        simp only [payloadMembers, stateMessage, batteryUpdate, List.mem_singleton] at hkv
        subst hkv
        decide),
   (state_merge_replaces_record plainLib connWithT1
      (stateMessage 9 (batteryUpdate "T1" 60)) rfl rfl rfl).2
      [] [] [] [] [("batteryvoltage", .num (.uint 60))] "turtles" "T1" rfl rfl
      (by simp) (by simp) rfl⟩

/-! ## Correlation of replies -/

/-- A ping reply, or a state message whose payload merges, dispatched while an empty open
channel is registered under its `parent_id`: the message is put on the channel, the
channel is closed, and the loop goes on. -/
theorem iterate_with_waiter (L : Lib) (c : Conn) (msg : Message) (p : ULID)
    (hrun : c.loop = .running) (hopen : c.closed = false)
    (hpar : msg.ParentID = some p)
    (hreg : mapGet c.pendingReqs p = some { buf := none, closed := false })
    (hty : msg.Typ = MessageTypePing ∨
      (msg.Typ = MessageTypeState ∧ (Unmarshal L.foldName msg.Payload c.state).2 = none)) :
    (iterate L c (.ok msg)).pendingReqs =
        mapSet c.pendingReqs p { buf := some msg, closed := true } ∧
      (iterate L c (.ok msg)).loop = .running ∧
      (iterate L c (.ok msg)).closed = false := by
  have hne : ¬ MessageTypeState = MessageTypePing := by decide
  rcases hty with hty | ⟨hty, hok⟩
  · simp [iterate, hrun, hopen, dispatch, hty, hpar, deliver, hreg]
  · simp [iterate, hrun, hopen, dispatch, hty, hne, hok, hpar, deliver, hreg]

/-- A message dispatched while nothing is registered under its `parent_id`: the table is
as before, and the loop goes on unless the type of the message is unknown. -/
theorem iterate_without_waiter (L : Lib) (c : Conn) (msg : Message) (p : ULID)
    (hrun : c.loop = .running) (hopen : c.closed = false)
    (hpar : msg.ParentID = some p) (hreg : mapGet c.pendingReqs p = none) :
    (iterate L c (.ok msg)).pendingReqs = c.pendingReqs ∧
      (msg.Typ = MessageTypePing ∨ msg.Typ = MessageTypeState →
        (iterate L c (.ok msg)).loop = .running) := by
  have hne : ¬ MessageTypeState = MessageTypePing := by decide
  by_cases h1 : msg.Typ = MessageTypePing
  · simp [iterate, hrun, hopen, dispatch, h1, hpar, deliver, hreg]
  · by_cases h2 : msg.Typ = MessageTypeState
    · cases he : (Unmarshal L.foldName msg.Payload c.state).2 with
      | some e => simp [iterate, hrun, hopen, dispatch, h2, hne, he]
      | none => simp [iterate, hrun, hopen, dispatch, h2, hne, he, hpar, deliver, hreg]
    · simp [iterate, hrun, hopen, dispatch, h1, h2]

/-- The order of events in which nothing goes wrong: a reply is dispatched to a waiter
whose channel is empty and open, the waiter receives it and removes its registration
before the loop dispatches anything else, and only then a second message with the same
`parent_id` is dispatched. That message finds no waiter, changes nothing in the table,
and the loop goes on (unless the type of the message is unknown). -/
theorem reply_delivered_once (L : Lib) (c : Conn) (msg : Message) (p : ULID)
    (hrun : c.loop = .running) (hopen : c.closed = false)
    (hpar : msg.ParentID = some p)
    (hreg : mapGet c.pendingReqs p = some { buf := none, closed := false })
    (hty : msg.Typ = MessageTypePing ∨
      (msg.Typ = MessageTypeState ∧ (Unmarshal L.foldName msg.Payload c.state).2 = none)) :
    mapGet (iterate L c (.ok msg)).pendingReqs p = some { buf := some msg, closed := true } ∧
    (iterate L c (.ok msg)).loop = .running ∧
    (awaitReply (iterate L c (.ok msg)) p).1 = .done msg.Payload ∧
    mapGet (awaitReply (iterate L c (.ok msg)) p).2.pendingReqs p = none ∧
    ∀ msg2 : Message, msg2.ParentID = some p →
      (iterate L (awaitReply (iterate L c (.ok msg)) p).2 (.ok msg2)).pendingReqs =
        (awaitReply (iterate L c (.ok msg)) p).2.pendingReqs ∧
      (msg2.Typ = MessageTypePing ∨ msg2.Typ = MessageTypeState →
        (iterate L (awaitReply (iterate L c (.ok msg)) p).2 (.ok msg2)).loop = .running) := by
  obtain ⟨h1, h2, h3⟩ := iterate_with_waiter L c msg p hrun hopen hpar hreg hty
  have hget : mapGet (iterate L c (.ok msg)).pendingReqs p =
      some { buf := some msg, closed := true } := by
    rw [h1]; exact mapGet_mapSet_self _ _ _
  have haw : awaitReply (iterate L c (.ok msg)) p =
      (.done msg.Payload, { iterate L c (.ok msg) with
        pendingReqs := mapDelete (iterate L c (.ok msg)).pendingReqs p }) := by
    simp [awaitReply, hget]
  refine ⟨hget, h2, by rw [haw], ?_, ?_⟩
  · rw [haw]; exact mapGet_mapDelete_self _ _
  · intro msg2 hpar2
    rw [haw]
    exact iterate_without_waiter L _ msg2 p h2 h3 hpar2 (mapGet_mapDelete_self _ _)

/-- The reply to the pending ping request `101`, then a second reply to it after the
waiter has returned. -/
theorem reply_delivered_once_example :
    (awaitReply (iterate plainLib connWaiting (.ok (pong 55 101))) 101).1 = .done none ∧
    (iterate plainLib (awaitReply (iterate plainLib connWaiting (.ok (pong 55 101))) 101).2
      (.ok (pong 56 101))).loop = .running :=
  ⟨(reply_delivered_once plainLib connWaiting (pong 55 101) 101 rfl rfl rfl rfl
      (Or.inl rfl)).2.2.1,
   ((reply_delivered_once plainLib connWaiting (pong 55 101) 101 rfl rfl rfl rfl
      (Or.inl rfl)).2.2.2.2 (pong 56 101) rfl).2 (Or.inl rfl)⟩

/-- A message dispatched while a closed channel is registered under its `parent_id`: the
send on the closed channel panics. -/
theorem iterate_closed_waiter (L : Lib) (c : Conn) (msg : Message) (p : ULID)
    (ch : ReplyChan) (hrun : c.loop = .running) (hopen : c.closed = false)
    (hpar : msg.ParentID = some p) (hreg : mapGet c.pendingReqs p = some ch)
    (hcl : ch.closed = true)
    (hty : msg.Typ = MessageTypePing ∨
      (msg.Typ = MessageTypeState ∧ (Unmarshal L.foldName msg.Payload c.state).2 = none)) :
    (iterate L c (.ok msg)).loop = .panicked := by
  have hne : ¬ MessageTypeState = MessageTypePing := by decide
  rcases hty with hty | ⟨hty, hok⟩
  · simp [iterate, hrun, hopen, dispatch, hty, hpar, deliver, hreg, hcl]
  · simp [iterate, hrun, hopen, dispatch, hty, hne, hok, hpar, deliver, hreg, hcl]

/-- The receive followed by the removal is the combined step of the waiter. -/
theorem awaitReply_eq_receive_then_remove (c : Conn) (id : ULID) (ch : ReplyChan)
    (m : Message) (hreg : mapGet c.pendingReqs id = some ch) (hbuf : ch.buf = some m) :
    (receiveReply c id).1 = some m ∧
    (awaitReply c id).1 = .done m.Payload ∧
    (awaitReply c id).2.pendingReqs =
      (removeRegistration (receiveReply c id).2 id).pendingReqs := by
  have hdel : ∀ (l : List (ULID × ReplyChan)) (v : ReplyChan),
      mapGet l id ≠ none → mapDelete (mapSet l id v) id = mapDelete l id := by
    intro l v
    induction l with
    | nil => intro h; simp [mapGet] at h
    | cons a rest ih =>
      intro h
      obtain ⟨k, w⟩ := a
      by_cases hk : k = id
      · simp [mapSet, mapDelete, hk]
      · simp only [mapGet, hk, if_false] at h
        simp [mapSet, mapDelete, hk, ih h]
  refine ⟨by simp [receiveReply, hreg, hbuf], by simp [awaitReply, hreg, hbuf], ?_⟩
  simp only [awaitReply, receiveReply, removeRegistration, hreg, hbuf]
  exact (hdel c.pendingReqs _ (by rw [hreg]; simp)).symm

/-- C4. The code does not give what the claim says: after a reply with `parent_id` `p`
has been dispatched to the waiter registered under `p`, the registration is still in the
table with its channel closed, and a second message with the same `parent_id` dispatched
before the waiter has removed the registration, be it before or after the waiter has
received the first reply, does not find `no waiter`: the loop sends on the closed
channel and panics. -/
theorem second_reply_before_removal_panics (L : Lib) (c : Conn) (msg1 msg2 : Message)
    (p : ULID) (hrun : c.loop = .running) (hopen : c.closed = false)
    (hpar1 : msg1.ParentID = some p) (hpar2 : msg2.ParentID = some p)
    (hreg : mapGet c.pendingReqs p = some { buf := none, closed := false })
    (hty1 : msg1.Typ = MessageTypePing ∨
      (msg1.Typ = MessageTypeState ∧ (Unmarshal L.foldName msg1.Payload c.state).2 = none))
    (hty2 : msg2.Typ = MessageTypePing ∨
      (msg2.Typ = MessageTypeState ∧
        (Unmarshal L.foldName msg2.Payload (iterate L c (.ok msg1)).state).2 = none)) :
    mapGet (iterate L c (.ok msg1)).pendingReqs p =
      some { buf := some msg1, closed := true } ∧
    (iterate L (iterate L c (.ok msg1)) (.ok msg2)).loop = .panicked ∧
    (receiveReply (iterate L c (.ok msg1)) p).1 = some msg1 ∧
    mapGet (receiveReply (iterate L c (.ok msg1)) p).2.pendingReqs p =
      some { buf := none, closed := true } ∧
    (iterate L (receiveReply (iterate L c (.ok msg1)) p).2 (.ok msg2)).loop = .panicked := by
  obtain ⟨h1, h2, h3⟩ := iterate_with_waiter L c msg1 p hrun hopen hpar1 hreg hty1
  have hget : mapGet (iterate L c (.ok msg1)).pendingReqs p =
      some { buf := some msg1, closed := true } := by
    rw [h1]; exact mapGet_mapSet_self _ _ _
  have hrecv : receiveReply (iterate L c (.ok msg1)) p =
      (some msg1, { iterate L c (.ok msg1) with
        pendingReqs := mapSet (iterate L c (.ok msg1)).pendingReqs p
          { buf := none, closed := true } }) := by
    simp [receiveReply, hget]
  have hget2 : mapGet (receiveReply (iterate L c (.ok msg1)) p).2.pendingReqs p =
      some { buf := none, closed := true } := by
    rw [hrecv]; exact mapGet_mapSet_self _ _ _
  refine ⟨hget, ?_, by rw [hrecv], hget2, ?_⟩
  · exact iterate_closed_waiter L _ msg2 p _ h2 h3 hpar2 hget rfl hty2
  · refine iterate_closed_waiter L _ msg2 p _ ?_ ?_ hpar2 hget2 rfl ?_
    · rw [hrecv]; exact h2
    · rw [hrecv]; exact h3
    · rw [hrecv]; exact hty2

/-- Two replies to the pending ping request `101`, back to back. -/
theorem second_reply_before_removal_panics_witness :
    mapGet connWaiting.pendingReqs 101 = some { buf := none, closed := false } ∧
    mapGet (iterate plainLib connWaiting (.ok (pong 55 101))).pendingReqs 101 =
      some { buf := some (pong 55 101), closed := true } ∧
    (iterate plainLib (iterate plainLib connWaiting (.ok (pong 55 101)))
      (.ok (pong 56 101))).loop = .panicked :=
  ⟨rfl,
   (second_reply_before_removal_panics plainLib connWaiting (pong 55 101) (pong 56 101) 101
      rfl rfl rfl rfl rfl (Or.inl rfl) (Or.inl rfl)).1,
   (second_reply_before_removal_panics plainLib connWaiting (pong 55 101) (pong 56 101) 101
      rfl rfl rfl rfl rfl (Or.inl rfl) (Or.inl rfl)).2.1⟩

/-! ## Close -/

/-- C5. After a call of `Close` that returned, a second call of `Close` on the same
connection does not return: `close(c.closeCh)` panics on the closed channel. -/
theorem Close_twice_panics (c c1 : Conn) (h : Close c = .ret c1) :
    Close c1 = .panic "close of closed channel" := by
  unfold Close at h
  split at h
  · cases h
  · injection h with h
    subst h
    simp [Close]

/-- The first `Close` of a fresh connection returns, the second panics. -/
theorem Close_twice_panics_witness :
    Close freshConn = .ret closedConn ∧ Close closedConn = .panic "close of closed channel" :=
  ⟨rfl, Close_twice_panics freshConn closedConn rfl⟩

/-! ## Dispatch loop -/

/-- C8. For every ping message dispatched on an open connection: without a `parent_id`,
the dispatch step hands exactly one message to the writer, of type ping and with the
`message_id` of the probe as `parent_id` (and surfaces an error only if that write
fails); with a `parent_id`, the dispatch step leaves the writer untouched. -/
theorem ping_probe_gets_one_reply (L : Lib) (c : Conn) (msg : Message)
    (hrun : c.loop = .running) (hopen : c.closed = false)
    (hty : msg.Typ = MessageTypePing) :
    (msg.ParentID = none →
      (iterate L c (.ok msg)).encoder.sent = c.encoder.sent ++
        [{ Typ := MessageTypePing, MessageID := c.ids c.drawn,
           ParentID := some msg.MessageID, Payload := none }] ∧
      (iterate L c (.ok msg)).errs = c.errs ++
        (match c.encoder.fail c.encoder.sent.length with
         | some e => [Err.encodePing e]
         | none => [])) ∧
    (msg.ParentID ≠ none → (iterate L c (.ok msg)).encoder = c.encoder) := by
  constructor
  · intro hpar
    cases hf : c.encoder.fail c.encoder.sent.length with
    | some e =>
      simp [iterate, hrun, hopen, dispatch, hty, hpar, Encoder.Encode, NewMessage, hf]
    | none =>
      simp [iterate, hrun, hopen, dispatch, hty, hpar, Encoder.Encode, NewMessage, hf,
        deliver]
  · intro hpar
    cases hp : msg.ParentID with
    | none => exact absurd hp hpar
    | some p =>
      simp only [iterate, hrun, hopen, dispatch, hty, hp, deliver, ne_eq,
        not_true_eq_false, if_false, if_true, Bool.false_eq_true]
      split
      · rfl
      · split
        · rfl
        · split <;> rfl

/-- A probe and a pong on a fresh connection. -/
theorem ping_probe_gets_one_reply_witness :
    (iterate plainLib freshConn (.ok (probe 40))).encoder.sent = freshConn.encoder.sent ++
        [{ Typ := MessageTypePing, MessageID := 101, ParentID := some 40, Payload := none }] ∧
    (iterate plainLib freshConn (.ok (pong 41 40))).encoder = freshConn.encoder :=
  ⟨((ping_probe_gets_one_reply plainLib freshConn (probe 40) rfl rfl rfl).1 rfl).1,
   (ping_probe_gets_one_reply plainLib freshConn (pong 41 40) rfl rfl rfl).2 (by decide)⟩

/-- A loop that is not running ignores whatever the stream still holds. -/
theorem runLoop_stopped (L : Lib) (rs : List DecodeResult) :
    ∀ c : Conn, c.loop ≠ .running → runLoop L c rs = c := by
  induction rs with
  | nil => intro c _; rfl
  | cons r rest ih =>
    intro c h
    have hstep : iterate L c r = c := by simp [iterate, h]
    simp only [runLoop, List.foldl_cons, hstep]
    exact ih c h

/-- C9. For every message dispatched on an open connection whose type is neither ping nor
state, and whatever follows it on the stream, the loop surfaces exactly one error and
returns: the snapshot, the subscriber slots, the pending-request table and the writer are
as they were before the message. -/
theorem unmatched_type_ends_loop (L : Lib) (c : Conn) (msg : Message)
    (rest : List DecodeResult)
    (hrun : c.loop = .running) (hopen : c.closed = false)
    (h1 : msg.Typ ≠ MessageTypePing) (h2 : msg.Typ ≠ MessageTypeState) :
    (runLoop L c (.ok msg :: rest)).errs = c.errs ++ [.unmatchedType msg.Typ] ∧
    (runLoop L c (.ok msg :: rest)).loop = .returned ∧
    (runLoop L c (.ok msg :: rest)).state = c.state ∧
    (runLoop L c (.ok msg :: rest)).stateSubs = c.stateSubs ∧
    (runLoop L c (.ok msg :: rest)).pendingReqs = c.pendingReqs ∧
    (runLoop L c (.ok msg :: rest)).encoder = c.encoder := by
  have hstep : iterate L c (.ok msg) =
      { c with errs := c.errs ++ [.unmatchedType msg.Typ], loop := .returned } := by
    simp [iterate, hrun, hopen, dispatch, h1, h2]
  have hall : runLoop L c (.ok msg :: rest) =
      { c with errs := c.errs ++ [.unmatchedType msg.Typ], loop := .returned } := by
    have h := runLoop_stopped L rest
      { c with errs := c.errs ++ [.unmatchedType msg.Typ], loop := .returned } (by simp)
    simpa [runLoop, hstep] using h
  rw [hall]
  exact ⟨rfl, rfl, rfl, rfl, rfl, rfl⟩

/-- A handshake after the setup, followed by a state update and a probe, on a connection
with a pending request. -/
theorem unmatched_type_ends_loop_witness :
    (runLoop plainLib connWaiting [.ok lateHandshake,
      .ok (stateMessage 9 (batteryUpdate "T1" 50)), .ok (probe 40)]).errs =
        connWaiting.errs ++ [.unmatchedType MessageTypeHandshake] ∧
    (runLoop plainLib connWaiting [.ok lateHandshake,
      .ok (stateMessage 9 (batteryUpdate "T1" 50)), .ok (probe 40)]).state =
        connWaiting.state :=
  ⟨(unmatched_type_ends_loop plainLib connWaiting lateHandshake
      [.ok (stateMessage 9 (batteryUpdate "T1" 50)), .ok (probe 40)] rfl rfl
      (by decide) (by decide)).1,
   (unmatched_type_ends_loop plainLib connWaiting lateHandshake
      [.ok (stateMessage 9 (batteryUpdate "T1" 50)), .ok (probe 40)] rfl rfl
      (by decide) (by decide)).2.2.1⟩

/-! ## Requests -/

/-- C10, as stated, fails: on a closed connection with a context that is done as well,
both cases of the `select` are ready, and when the one of `ctx.Done()` is chosen
`sendRequest` returns the error of the context, not `ErrClosed`. -/
theorem sendRequest_closed_may_return_context_error :
    closedConn.closed = true ∧
    (sendRequest closedConn cancelledContext false MessageTypePing nilPayload).1 =
      .failed (.context "context canceled") ∧
    (sendRequest closedConn cancelledContext false MessageTypePing nilPayload).1 ≠
      .failed .ErrClosed := by
  refine ⟨rfl, rfl, ?_⟩
  simp [sendRequest, closedConn, cancelledContext]

/-- C10, amended. For every request type and payload, `sendRequest` (and hence `Ping`,
`SetState`, `SetCommand`) called on a closed connection returns an error at once and
leaves the connection as it was: nothing is handed to the writer and nothing is
registered in the pending-request table. The error is `ErrClosed` when the context is not
done; when the context is done too it is `ErrClosed` or the error of the context. -/
theorem sendRequest_on_closed (L : Lib) (c : Conn) (ctx : Context) (pick : Bool)
    (typ : MessageType) (pld : Payload) (st : State) (cmd : String)
    (hclosed : c.closed = true) :
    ((sendRequest c ctx pick typ pld).1 = .failed .ErrClosed ∨
      ∃ e, ctx.err = some e ∧ pick = false ∧
        (sendRequest c ctx pick typ pld).1 = .failed (.context e)) ∧
    (ctx.err = none → (sendRequest c ctx pick typ pld).1 = .failed .ErrClosed ∧
      (Ping c ctx pick).1 = .failed .ErrClosed ∧
      (SetState L c ctx pick st).1 = .failed .ErrClosed ∧
      (SetCommand L c ctx pick cmd).1 = .failed .ErrClosed) ∧
    (sendRequest c ctx pick typ pld).2 = c ∧
    (Ping c ctx pick).2 = c ∧
    (SetState L c ctx pick st).2 = c ∧
    (SetCommand L c ctx pick cmd).2 = c := by
  have key : ∀ (t : MessageType) (q : Payload),
      ((sendRequest c ctx pick t q).1 = .failed .ErrClosed ∨
        ∃ e, ctx.err = some e ∧ pick = false ∧
          (sendRequest c ctx pick t q).1 = .failed (.context e)) ∧
      (ctx.err = none → (sendRequest c ctx pick t q).1 = .failed .ErrClosed) ∧
      (sendRequest c ctx pick t q).2 = c := by
    intro t q
    cases he : ctx.err with
    | none => simp [sendRequest, hclosed, he]
    | some e =>
      cases pick with
      | true => simp [sendRequest, hclosed, he]
      | false => simp [sendRequest, hclosed, he]
  refine ⟨(key typ pld).1, ?_, (key typ pld).2.2, (key _ _).2.2, (key _ _).2.2,
    (key _ _).2.2⟩
  intro he
  exact ⟨(key typ pld).2.1 he, (key _ _).2.1 he, (key _ _).2.1 he, (key _ _).2.1 he⟩

/-- A ping request on a closed connection with a live context. -/
theorem sendRequest_on_closed_witness :
    (Ping closedConn liveContext true).1 = .failed .ErrClosed ∧
    (Ping closedConn liveContext true).2 = closedConn :=
  ⟨((sendRequest_on_closed plainLib closedConn liveContext true MessageTypePing nilPayload
      { Command := "stop", Turtles := [] } "stop" rfl).2.1 rfl).2.1,
   (sendRequest_on_closed plainLib closedConn liveContext true MessageTypePing nilPayload
      { Command := "stop", Turtles := [] } "stop" rfl).2.2.2.1⟩

/-! ## End of the loop -/

/-- C12. In a running loop, whatever `Decode` returns once the connection is closed, be
it an error or a message, the loop returns without sending anything on the error channel
(it closes the channel); a decode failure while the connection is not closed sends
exactly one error and the loop returns. Either way nothing that follows on the stream is
dispatched. -/
theorem decode_error_after_close_is_silent (L : Lib) (c : Conn) (r : DecodeResult)
    (rest : List DecodeResult) (hrun : c.loop = .running) :
    (c.closed = true →
      (runLoop L c (r :: rest)).errs = c.errs ∧
      (runLoop L c (r :: rest)).errChClosed = true ∧
      (runLoop L c (r :: rest)).loop = .returned ∧
      runLoop L c (r :: rest) = iterate L c r) ∧
    (c.closed = false → ∀ e : String,
      (runLoop L c (.error e :: rest)).errs = c.errs ++ [.decodeIncoming e] ∧
      (runLoop L c (.error e :: rest)).loop = .returned ∧
      runLoop L c (.error e :: rest) = iterate L c (.error e)) := by
  constructor
  · intro hclosed
    have hstep : iterate L c r = { c with errChClosed := true, loop := .returned } := by
      simp [iterate, hrun, hclosed]
    have hall : runLoop L c (r :: rest) = iterate L c r := by
      have h := runLoop_stopped L rest (iterate L c r) (by rw [hstep]; simp)
      simpa [runLoop] using h
    rw [hall, hstep]
    exact ⟨rfl, rfl, rfl, rfl⟩
  · intro hopen e
    have hstep : iterate L c (.error e) =
        { c with errs := c.errs ++ [.decodeIncoming e], loop := .returned } := by
      simp [iterate, hrun, hopen]
    have hall : runLoop L c (.error e :: rest) = iterate L c (.error e) := by
      have h := runLoop_stopped L rest (iterate L c (.error e)) (by rw [hstep]; simp)
      simpa [runLoop] using h
    rw [hall, hstep]
    exact ⟨rfl, rfl, rfl⟩

/-- The end of the stream on a closed and on an open connection, each followed by a
probe. -/
theorem decode_error_after_close_is_silent_witness :
    (runLoop plainLib closedConn [.error "EOF", .ok (probe 40)]).errs = closedConn.errs ∧
    (runLoop plainLib freshConn [.error "EOF", .ok (probe 40)]).errs =
      freshConn.errs ++ [.decodeIncoming "EOF"] :=
  ⟨((decode_error_after_close_is_silent plainLib closedConn (.error "EOF") [.ok (probe 40)]
      rfl).1 rfl).1,
   ((decode_error_after_close_is_silent plainLib freshConn (.error "EOF") [.ok (probe 40)]
      rfl).2 rfl "EOF").1⟩

/-! ## Requests that fail -/

/-- C13. For every connection, context and choice of the scheduler, `SetTurtleState`
called with the empty mapping returns an error and leaves the connection as it was:
nothing is handed to the writer and nothing is registered in the pending-request
table. -/
theorem SetTurtleState_empty_fails (L : Lib) (c : Conn) (ctx : Context) (pick : Bool) :
    (SetTurtleState L c ctx pick []).1 = .failed .emptyState ∧
    (SetTurtleState L c ctx pick []).2 = c ∧
    (SetTurtleState L c ctx pick []).2.encoder.sent = c.encoder.sent ∧
    (SetTurtleState L c ctx pick []).2.pendingReqs = c.pendingReqs := by
  simp [SetTurtleState]

/-- C14. When the write of the request fails, `sendRequest` returns the error of the
writer and the reply channel it registered just before the write is still in the
pending-request table, under the message id it generated. -/
theorem sendRequest_failed_write_leaves_registration (c : Conn) (ctx : Context)
    (pick : Bool) (typ : MessageType) (pld : Payload) (b : Json) (e : String)
    (hopen : c.closed = false) (hctx : ctx.err = none)
    (hval : pld.validate = none) (hm : pld.marshal = .ok b)
    (hf : c.encoder.fail c.encoder.sent.length = some e) :
    (sendRequest c ctx pick typ pld).1 = .failed (.transport e) ∧
    (sendRequest c ctx pick typ pld).2.encoder.sent = c.encoder.sent ++
      [{ Typ := typ, MessageID := c.ids c.drawn, ParentID := none, Payload := some b }] ∧
    mapGet (sendRequest c ctx pick typ pld).2.pendingReqs (c.ids c.drawn) =
      some { buf := none, closed := false } := by
  have h : sendRequest c ctx pick typ pld = sendRequestSend c typ pld := by
    simp [sendRequest, hopen, hctx]
  rw [h]
  simp [sendRequestSend, hval, hm, Encoder.Encode, hf, NewMessage, mapGet_mapSet_self]

/-- A ping request on a writer that fails: the request drew the identifier `101`, which
stays registered. -/
theorem sendRequest_failed_write_leaves_registration_witness :
    (Ping connBrokenPipe liveContext true).1 = .failed (.transport "broken pipe") ∧
    mapGet (Ping connBrokenPipe liveContext true).2.pendingReqs 101 =
      some { buf := none, closed := false } :=
  ⟨(sendRequest_failed_write_leaves_registration connBrokenPipe liveContext true
      MessageTypePing nilPayload .null "broken pipe" rfl rfl rfl rfl rfl).1,
   (sendRequest_failed_write_leaves_registration connBrokenPipe liveContext true
      MessageTypePing nilPayload .null "broken pipe" rfl rfl rfl rfl rfl).2.2⟩

/-- C15. A state message whose payload fails to decode, dispatched on an open connection:
the snapshot, the subscriber slots and the pending-request table are as before (whatever
the failed decode stored in its working copy, and whatever `parent_id` the message
carries), exactly one error is reported, and the loop goes on with the rest of the
stream. An absent payload is such a failure. -/
theorem failed_state_decode_is_atomic (L : Lib) (c : Conn) (msg : Message)
    (rest : List DecodeResult) (e : JsonError)
    (hrun : c.loop = .running) (hopen : c.closed = false)
    (hty : msg.Typ = MessageTypeState)
    (herr : (Unmarshal L.foldName msg.Payload c.state).2 = some e) :
    (iterate L c (.ok msg)).state = c.state ∧
    (iterate L c (.ok msg)).stateSubs = c.stateSubs ∧
    (iterate L c (.ok msg)).pendingReqs = c.pendingReqs ∧
    (iterate L c (.ok msg)).errs = c.errs ++ [.decodeState e] ∧
    (iterate L c (.ok msg)).loop = .running ∧
    runLoop L c (.ok msg :: rest) =
      runLoop L { c with errs := c.errs ++ [.decodeState e] } rest ∧
    (msg.Payload = none → e = .unexpectedEnd) := by
  have hne : ¬ MessageTypeState = MessageTypePing := by decide
  have hstep : iterate L c (.ok msg) = { c with errs := c.errs ++ [.decodeState e] } := by
    simp [iterate, hrun, hopen, dispatch, hty, hne, herr]
  refine ⟨by rw [hstep], by rw [hstep], by rw [hstep], by rw [hstep], by rw [hstep, hrun],
    by simp [runLoop, hstep], ?_⟩
  intro hp
  rw [hp] at herr
  simp only [Unmarshal] at herr
  injection herr with herr
  exact herr.symm

/-- A reply to the pending request `101` that sets the command and then gives a number
for `turtles`: the working copy has the new command, the snapshot has not, and the
request still waits. -/
theorem failed_state_decode_is_atomic_witness :
    (Unmarshal plainLib.foldName badStateMessage.Payload connWaiting.state).1.Command =
      "stop" ∧
    (iterate plainLib connWaiting (.ok badStateMessage)).state.Command = "" ∧
    (iterate plainLib connWaiting (.ok badStateMessage)).pendingReqs =
      connWaiting.pendingReqs ∧
    (iterate plainLib connWaiting (.ok badStateMessage)).errs =
      connWaiting.errs ++ [.decodeState (.typeError "number" "turtles")] :=
  ⟨rfl,
   congrArg State.Command (failed_state_decode_is_atomic plainLib connWaiting
      badStateMessage [] (.typeError "number" "turtles") rfl rfl rfl rfl).1,
   (failed_state_decode_is_atomic plainLib connWaiting badStateMessage []
      (.typeError "number" "turtles") rfl rfl rfl rfl).2.2.1,
   (failed_state_decode_is_atomic plainLib connWaiting badStateMessage []
      (.typeError "number" "turtles") rfl rfl rfl rfl).2.2.2.1⟩

/-! ## Change notification -/

/-- The hand-over to a waiting request does not touch the subscriber slots. -/
theorem deliver_stateSubs (c : Conn) (msg : Message) :
    (deliver c msg).stateSubs = c.stateSubs := by
  simp only [deliver]
  split
  · rfl
  · split
    · rfl
    · split
      · rfl
      · split <;> rfl

/-- After the notification every slot that was registered holds a signal. -/
theorem mapGet_map_signal (subs : List (Nat × Bool)) (s : Nat) :
    mapGet (subs.map signal) s = (mapGet subs s).map (fun _ => true) := by
  induction subs with
  | nil => rfl
  | cons a rest ih =>
    obtain ⟨k, b⟩ := a
    cases b <;> by_cases h : k = s <;> simp [mapGet, signal, h, ih]

/-- The subscriber slots after one iteration: all signalled when the iteration merged a
state update, untouched otherwise. -/
theorem iterate_stateSubs (L : Lib) (c : Conn) (r : DecodeResult) :
    (iterate L c r).stateSubs =
      if merges L c r then c.stateSubs.map signal else c.stateSubs := by
  have hne : ¬ MessageTypeState = MessageTypePing := by decide
  by_cases hrun : c.loop = .running
  · cases hcl : c.closed with
    | true => cases r <;> simp [iterate, merges, hrun, hcl]
    | false =>
      cases r with
      | error e => simp [iterate, merges, hrun, hcl]
      | ok msg =>
        by_cases h1 : msg.Typ = MessageTypePing
        · have h2 : ¬ MessageTypePing = MessageTypeState := by decide
          cases hp : msg.ParentID with
          | some p =>
            simp [iterate, merges, hrun, hcl, dispatch, h1, h2, hp, deliver_stateSubs]
          | none =>
            cases hf : c.encoder.fail c.encoder.sent.length with
            | some e =>
              simp [iterate, merges, hrun, hcl, dispatch, h1, h2, hp, Encoder.Encode, hf]
            | none =>
              simp [iterate, merges, hrun, hcl, dispatch, h1, h2, hp, Encoder.Encode, hf,
                deliver_stateSubs]
        · by_cases h2 : msg.Typ = MessageTypeState
          · cases he : (Unmarshal L.foldName msg.Payload c.state).2 with
            | some e => simp [iterate, merges, hrun, hcl, dispatch, h2, hne, he]
            | none =>
              simp [iterate, merges, hrun, hcl, dispatch, h2, hne, he, deliver_stateSubs]
          · simp [iterate, merges, hrun, hcl, dispatch, h1, h2]
  · cases r <;> simp [iterate, merges, hrun]

/-- The slot of a registered subscriber after a run of the loop: it holds a signal when
it held one before or when the run merged at least one state update. -/
theorem runLoop_slot (L : Lib) (s : Nat) (rs : List DecodeResult) :
    ∀ (c : Conn) (b : Bool), mapGet c.stateSubs s = some b →
      mapGet (runLoop L c rs).stateSubs s =
        some (b || decide (1 ≤ mergedCount L c rs)) := by
  induction rs with
  | nil => intro c b h; simpa [runLoop, mergedCount] using h
  | cons r rest ih =>
    intro c b h
    have hstep : mapGet (iterate L c r).stateSubs s = some (b || merges L c r) := by
      rw [iterate_stateSubs]
      cases hm : merges L c r with
      | true => simp [mapGet_map_signal, h]
      | false => simpa using h
    have hrec := ih (iterate L c r) (b || merges L c r) hstep
    simp only [runLoop, List.foldl_cons] at hrec ⊢
    rw [hrec]
    cases hm : merges L c r <;> cases b <;> simp [mergedCount, hm]

theorem chanSound_of_mapGet (m : List (ULID × ReplyChan)) (p : ULID) (ch : ReplyChan)
    (hall : m.all (fun kv => chanSound kv.2) = true) (hget : mapGet m p = some ch) :
    chanSound ch = true := by
  induction m with
  | nil => simp [mapGet] at hget
  | cons a rest ih =>
    obtain ⟨k, v⟩ := a
    simp only [List.all_cons, Bool.and_eq_true] at hall
    by_cases h : k = p
    · simp only [mapGet, h, if_true, Option.some.injEq] at hget
      rw [← hget]; exact hall.1
    · simp only [mapGet, h, if_false] at hget
      exact ih hall.2 hget

theorem chanSound_mapSet (m : List (ULID × ReplyChan)) (p : ULID) (v : ReplyChan)
    (hall : m.all (fun kv => chanSound kv.2) = true) (hv : chanSound v = true) :
    (mapSet m p v).all (fun kv => chanSound kv.2) = true := by
  induction m with
  | nil => simp [mapSet, hv]
  | cons a rest ih =>
    obtain ⟨k, w⟩ := a
    simp only [List.all_cons, Bool.and_eq_true] at hall
    by_cases h : k = p
    · simp [mapSet, h, hv, hall.2]
    · simp [mapSet, h, hall.1, ih hall.2]

/-- With sound reply channels the hand-over never blocks, and it keeps them sound. -/
theorem deliver_sound (c : Conn) (msg : Message)
    (hs : replyChansSound c = true) (hnb : c.loop ≠ .blocked) :
    (deliver c msg).loop ≠ .blocked ∧ replyChansSound (deliver c msg) = true := by
  simp only [deliver]
  cases hp : msg.ParentID with
  | none => exact ⟨hnb, hs⟩
  | some p =>
    simp only
    cases hg : mapGet c.pendingReqs p with
    | none => exact ⟨hnb, hs⟩
    | some ch =>
      simp only
      have hch := chanSound_of_mapGet c.pendingReqs p ch hs hg
      cases hcl : ch.closed with
      | true => exact ⟨by simp, hs⟩
      | false =>
        cases hb : ch.buf with
        | some m => simp [chanSound, hcl, hb] at hch
        | none =>
          refine ⟨by simpa using hnb, ?_⟩
          exact chanSound_mapSet c.pendingReqs p _ hs (by simp [chanSound])

/-- One iteration of the loop never blocks on sound reply channels, and keeps them
sound. -/
theorem iterate_sound (L : Lib) (c : Conn) (r : DecodeResult)
    (hs : replyChansSound c = true) (hnb : c.loop ≠ .blocked) :
    (iterate L c r).loop ≠ .blocked ∧ replyChansSound (iterate L c r) = true := by
  have hne : ¬ MessageTypeState = MessageTypePing := by decide
  by_cases hrun : c.loop = .running
  · cases hcl : c.closed with
    | true => exact ⟨by simp [iterate, hrun, hcl], by simpa [iterate, hrun, hcl] using hs⟩
    | false =>
      cases r with
      | error e => exact ⟨by simp [iterate, hrun, hcl], by simpa [iterate, hrun, hcl] using hs⟩
      | ok msg =>
        have hit : iterate L c (.ok msg) = dispatch L c msg := by
          simp [iterate, hrun, hcl]
        rw [hit]
        by_cases h1 : msg.Typ = MessageTypePing
        · cases hp : msg.ParentID with
          | some p =>
            have hd : dispatch L c msg = deliver c msg := by simp [dispatch, h1, hp]
            rw [hd]; exact deliver_sound c msg hs hnb
          | none =>
            cases hf : c.encoder.fail c.encoder.sent.length with
            | some e =>
              exact ⟨by simp [dispatch, h1, hp, Encoder.Encode, hf, hrun],
                by simpa [dispatch, h1, hp, Encoder.Encode, hf, replyChansSound] using hs⟩
            | none =>
              simp only [dispatch, h1, hp, Encoder.Encode, hf, if_true]
              exact deliver_sound _ msg (by simpa [replyChansSound] using hs)
                (by simpa using hnb)
        · by_cases h2 : msg.Typ = MessageTypeState
          · cases he : (Unmarshal L.foldName msg.Payload c.state).2 with
            | some e =>
              exact ⟨by simp [dispatch, h2, hne, he, hrun],
                by simpa [dispatch, h2, hne, he, replyChansSound] using hs⟩
            | none =>
              simp only [dispatch, h2, hne, he, if_true, if_false]
              exact deliver_sound _ msg (by simpa [replyChansSound] using hs)
                (by simpa using hnb)
          · exact ⟨by simp [dispatch, h1, h2],
              by simpa [dispatch, h1, h2, replyChansSound] using hs⟩
  · have hit : iterate L c r = c := by simp [iterate, hrun]
    rw [hit]; exact ⟨hnb, hs⟩

/-- A run of the loop never blocks on sound reply channels. -/
theorem runLoop_sound (L : Lib) (rs : List DecodeResult) :
    ∀ c : Conn, replyChansSound c = true → c.loop ≠ .blocked →
      (runLoop L c rs).loop ≠ .blocked ∧ replyChansSound (runLoop L c rs) = true := by
  induction rs with
  | nil => intro c hs hnb; exact ⟨hnb, hs⟩
  | cons r rest ih =>
    intro c hs hnb
    obtain ⟨h1, h2⟩ := iterate_sound L c r hs hnb
    simpa [runLoop] using ih (iterate L c r) h2 h1

/-- A subscription on an open connection with a live context registers a new channel
whose buffer is empty, and keeps the slots of the other subscribers. -/
theorem SubscribeStateChanges_registers (c : Conn) (ctx : Context) (pick : Bool)
    (hopen : c.closed = false) (hctx : ctx.err = none) :
    (SubscribeStateChanges c ctx pick).1 = .ok (newChan c.stateSubs) ∧
    mapGet (SubscribeStateChanges c ctx pick).2.stateSubs (newChan c.stateSubs) =
      some false := by
  simp [SubscribeStateChanges, hopen, hctx, mapGet_mapSet_self]

/-- C11. For every subscriber registered on the connection, and every run of the dispatch
loop during which its slot is not drained: after the run the slot holds one signal when
it held one before or when the run merged at least one state update, and none otherwise
(the slot has room for one signal; a signal that finds it full is dropped); so after any
number `n ≥ 1` of merged updates the slot holds exactly one pending notification. And
with reply channels as the code leaves them, no step of the run blocks the loop. -/
theorem subscriber_slot_coalesces (L : Lib) (c : Conn) (rs : List DecodeResult) (s : Nat)
    (b : Bool) (hreg : mapGet c.stateSubs s = some b)
    (hs : replyChansSound c = true) (hnb : c.loop ≠ .blocked) :
    mapGet (runLoop L c rs).stateSubs s = some (b || decide (1 ≤ mergedCount L c rs)) ∧
    (1 ≤ mergedCount L c rs → mapGet (runLoop L c rs).stateSubs s = some true) ∧
    (runLoop L c rs).loop ≠ .blocked := by
  have h := runLoop_slot L s rs c b hreg
  refine ⟨h, ?_, (runLoop_sound L rs c hs hnb).1⟩
  intro hn
  rw [h]
  simp [hn]

/-- Two state updates, with a failed one in between, on a connection with one subscriber
that never reads its channel. -/
theorem subscriber_slot_coalesces_witness :
    mergedCount plainLib connSubscribed [.ok (stateMessage 9 (batteryUpdate "T1" 50)),
      .ok badStateMessage, .ok (stateMessage 10 (batteryUpdate "T2" 80))] = 2 ∧
    mapGet (runLoop plainLib connSubscribed [.ok (stateMessage 9 (batteryUpdate "T1" 50)),
      .ok badStateMessage, .ok (stateMessage 10 (batteryUpdate "T2" 80))]).stateSubs 1 =
        some true ∧
    (runLoop plainLib connSubscribed [.ok (stateMessage 9 (batteryUpdate "T1" 50)),
      .ok badStateMessage, .ok (stateMessage 10 (batteryUpdate "T2" 80))]).loop ≠
        .blocked :=
  ⟨rfl,
   (subscriber_slot_coalesces plainLib connSubscribed
      [.ok (stateMessage 9 (batteryUpdate "T1" 50)), .ok badStateMessage,
       .ok (stateMessage 10 (batteryUpdate "T2" 80))] 1 false rfl rfl (by decide)).2.1
      (by decide),
   (subscriber_slot_coalesces plainLib connSubscribed
      [.ok (stateMessage 9 (batteryUpdate "T1" 50)), .ok badStateMessage,
       .ok (stateMessage 10 (batteryUpdate "T2" 80))] 1 false rfl rfl (by decide)).2.2⟩

/-! ## Reply channels stay as the code leaves them -/

theorem chanSound_mapDelete (m : List (ULID × ReplyChan)) (p : ULID)
    (hall : m.all (fun kv => chanSound kv.2) = true) :
    (mapDelete m p).all (fun kv => chanSound kv.2) = true := by
  induction m with
  | nil => rfl
  | cons a rest ih =>
    obtain ⟨k, w⟩ := a
    simp only [List.all_cons, Bool.and_eq_true] at hall
    by_cases h : k = p
    · simp [mapDelete, h, ih hall.2]
    · simp [mapDelete, h, hall.1, ih hall.2]

/-- The connection `Connect` returns has a running loop and no reply channel. -/
theorem Connect_sound (L : Lib) (ver : Version) (w : Encoder) (ids : Nat → ULID)
    (r : DecodeResult) (c : Conn) (h : Connect L ver w ids r = .ok c) :
    replyChansSound c = true ∧ c.loop = .running := by
  cases r with
  | error e => simp [Connect] at h
  | ok req =>
    simp only [Connect] at h
    split at h
    · cases h
    · split at h
      · cases h
      · split at h
        · cases h
        · split at h
          · cases h
          · split at h
            · cases h
            · split at h
              · cases h
              · injection h with h
                subst h
                exact ⟨rfl, rfl⟩

/-- The separate steps of the waiter keep the reply channels sound. -/
theorem waiter_steps_keep_sound (c : Conn) (id : ULID) (hs : replyChansSound c = true) :
    replyChansSound (receiveReply c id).2 = true ∧
    replyChansSound (removeRegistration c id) = true := by
  refine ⟨?_, chanSound_mapDelete c.pendingReqs id hs⟩
  simp only [receiveReply]
  split
  · exact hs
  · split
    · exact chanSound_mapSet c.pendingReqs id _ hs (by simp [chanSound])
    · exact hs

/-- The steps of the callers keep the reply channels sound: `sendRequest` registers an
empty open channel, and the receive of the reply removes a registration. -/
theorem callers_keep_sound (c : Conn) (ctx : Context) (pick : Bool) (typ : MessageType)
    (pld : Payload) (id : ULID) (hs : replyChansSound c = true) :
    replyChansSound (sendRequest c ctx pick typ pld).2 = true ∧
    replyChansSound (awaitReply c id).2 = true ∧
    replyChansSound (SubscribeStateChanges c ctx pick).2 = true := by
  refine ⟨?_, ?_, ?_⟩
  · simp only [sendRequest]
    split
    · exact hs
    · exact hs
    · split <;> exact hs
    · simp only [sendRequestSend]
      split
      · exact hs
      · split
        · exact hs
        · have hset := chanSound_mapSet c.pendingReqs (c.ids c.drawn)
            { buf := none, closed := false } hs (by simp [chanSound])
          split
          · simpa [replyChansSound, NewMessage] using hset
          · simpa [replyChansSound, NewMessage] using hset
  · simp only [awaitReply]
    split
    · exact hs
    · split
      · exact chanSound_mapDelete c.pendingReqs id hs
      · split <;> exact hs
  · simp only [SubscribeStateChanges]
    split
    · exact hs
    · exact hs
    · split <;> exact hs
    · simpa [replyChansSound] using hs

end Turtlitto
